import Mathlib

/-!
Two serverless request handlers.

A shallow embedding of `code/app/handler.js` (the AWS-Lambda-style handler
`exports.handler`) and `code/app/azure_function/index.js` (the Azure-Function-style
handler `module.exports`), together with the part of ECMAScript the two files
evaluate: property reads, `||`, `&&`, `===` against a string literal, `ToString`,
`JSON.parse` and `JSON.stringify`.

Strings are sequences of UTF-16 code units, as in ECMAScript. IEEE doubles are not
embedded: a Number is represented by a decimal numeral that denotes it. What ECMAScript
leaves to the engine is supplied by an `Engine`: the text it prints for a Number or for
an `Error`, and the nested values on which a recursive built-in exhausts the call stack
and throws a `RangeError`.
-/

set_option autoImplicit false

namespace JS

/-! ## Strings -/

/-- One UTF-16 code unit. -/
abbrev CodeUnit := UInt16

/-- An ECMAScript String value: a finite sequence of UTF-16 code units. -/
abbrev JSString := List CodeUnit

/-- UTF-16 encoding of one Unicode scalar value. -/
def utf16Char (c : Char) : List CodeUnit :=
  if c.toNat < 0x10000 then [c.toNat.toUInt16]
  else
    [(0xD800 + (c.toNat - 0x10000) / 0x400).toUInt16,
     (0xDC00 + (c.toNat - 0x10000) % 0x400).toUInt16]

/-- The String value a source literal denotes. -/
def utf16 (s : String) : JSString :=
  (s.toList.map utf16Char).flatten

/-- Concatenation of strings with a separator between consecutive ones. -/
def joinWith (sep : JSString) : List JSString → JSString
  | [] => []
  | [s] => s
  | s :: t :: rest => s ++ sep ++ joinWith sep (t :: rest)

/-! ## Values -/

/-- A Number value, given by a decimal numeral: the double nearest to
`(-1)^neg * coeff * 10^exp` (round to nearest, ties to even; beyond the largest
double, an infinity). `NaN` has no numeral; it is the value of no JSON text and of
no literal in the two source files. -/
structure JSNumber where
  neg : Bool
  coeff : Nat
  exp : Int
deriving DecidableEq, Repr

/-- The Number value of a non-negative integer literal of the source. -/
def JSNumber.ofNat (n : Nat) : JSNumber := ⟨false, n, 0⟩

/-- Whether the double is `+0` or `-0`: the numeral's magnitude is at most `2^-1075`,
half the smallest positive double. -/
def JSNumber.isZero (n : JSNumber) : Bool :=
  decide (n.coeff * 10 ^ n.exp.toNat * 2 ^ 1075 ≤ 10 ^ (-n.exp).toNat)

/-- Whether the double is finite: the numeral's magnitude is below `2^1024 - 2^970`,
the midpoint between the largest double and `2^1024`. -/
def JSNumber.isFinite (n : JSNumber) : Bool :=
  decide (n.coeff * 10 ^ n.exp.toNat < (2 ^ 1024 - 2 ^ 970) * 10 ^ (-n.exp).toNat)

/-- ECMAScript values of the JSON data model, and `undefined`. An object is the list
of its own properties in property order; its prototype is `Object.prototype`
(`Array.prototype` for an array). -/
inductive JSValue where
  | undefined
  | null
  | bool (b : Bool)
  | num (n : JSNumber)
  | str (s : JSString)
  | arr (items : List JSValue)
  | obj (props : List (JSString × JSValue))
deriving Repr

/-- The own properties of an object, in property order. -/
abbrev Props := List (JSString × JSValue)

/-- The exceptions the two handlers can meet. -/
inductive JSError where
  /-- `SyntaxError`: `JSON.parse` rejected `text`. -/
  | syntaxError (text : JSString)
  /-- `TypeError`: a property `key` was read from `undefined` or `null`. -/
  | nullRead (base : JSValue) (key : JSString)
  /-- `TypeError`: an object has no primitive value (`ToPrimitive` failed). -/
  | notPrimitive (v : JSValue)
  /-- `RangeError`: a recursive built-in (`JSON.stringify`, `Array.prototype.join`) went
  deeper into a nested value than the call stack allows. -/
  | rangeError

/-- Whether a value is a primitive: neither an array nor an object. -/
def JSValue.isPrimitive : JSValue → Bool
  | .arr _ => false
  | .obj _ => false
  | _ => true

/-- Whether nothing is nested inside a value: a primitive, or an array or object whose
elements or property values are all primitives. -/
def flat : JSValue → Bool
  | .arr items => items.all JSValue.isPrimitive
  | .obj props => props.all fun p => p.2.isPrimitive
  | _ => true

/-- What the host engine fixes and the two source files rely on without defining. -/
structure Engine where
  /-- The decimal text of a Number (`Number::toString`, the shortest numeral that reads back
  as the same double). -/
  numberToString : JSNumber → JSString
  /-- The text `String(err)` of an exception: its name and an engine-specific message. -/
  errorToString : JSError → JSString
  /-- Whether the call `JSON.stringify(v)` exhausts the call stack: the built-in recurses
  into every nested array and object, and throws a `RangeError` when `v` is nested too
  deeply for the stack. -/
  stringifyOverflows : JSValue → Bool
  /-- Whether `ToString` of the array `v` exhausts the call stack: `Array.prototype.join`
  recurses into every nested array. -/
  joinOverflows : JSValue → Bool
  /-- A value with nothing nested inside it needs no recursion: `JSON.stringify` serialises
  it on every engine. -/
  stringify_flat : ∀ v, flat v = true → stringifyOverflows v = false

/-- The engine `E` with the smallest call stack the embedding allows: `JSON.stringify`
serialises the values that have nothing nested inside them, and exhausts the stack on every
other value. -/
def Engine.shallowStack (E : Engine) : Engine where
  numberToString := E.numberToString
  errorToString := E.errorToString
  stringifyOverflows := fun v => !flat v
  joinOverflows := E.joinOverflows
  stringify_flat := fun v h => by simp [h]

/-- The `ToBoolean` conversion: `undefined`, `null`, `false`, `±0` and the empty string are
falsy, every other value is truthy. -/
def toBoolean : JSValue → Bool
  | .undefined => false
  | .null => false
  | .bool b => b
  | .num n => !n.isZero
  | .str s => !s.isEmpty
  | .arr _ => true
  | .obj _ => true

/-- The value of `a || b`: `a` when it is truthy, otherwise `b`, which is evaluated only then. -/
def logicalOr (a : Except JSError JSValue) (b : Unit → Except JSError JSValue) :
    Except JSError JSValue := do
  let x ← a
  if toBoolean x then pure x else b ()

/-- The value of `a && b`: `a` when it is falsy, otherwise `b`, which is evaluated only then. -/
def logicalAnd (a : Except JSError JSValue) (b : Unit → Except JSError JSValue) :
    Except JSError JSValue := do
  let x ← a
  if toBoolean x then b () else pure x

/-- The value of `v === 'lit'` for a string literal: true exactly when `v` is a String with
the same code units. -/
def strictEqualsString (v : JSValue) (lit : JSString) : Bool :=
  match v with
  | .str s => s == lit
  | _ => false

/-- The own property `key` of a property list, `undefined` when there is none. -/
def getOwn (props : Props) (key : JSString) : JSValue :=
  match props.find? (fun p => p.1 == key) with
  | some p => p.2
  | none => .undefined

/-- The property read `base.key`, for the property names the source reads (`httpMethod`,
`requestContext`, `http`, `method`, `body`, `userId`): none of them is `length`, an array
index or a property of a built-in prototype, so the read finds an own property of an object
or nothing. Reading from `undefined` or `null` throws a `TypeError`. -/
def get (base : JSValue) (key : JSString) : Except JSError JSValue :=
  match base with
  | .undefined => throw (.nullRead .undefined key)
  | .null => throw (.nullRead .null key)
  | .obj props => pure (getOwn props key)
  | _ => pure .undefined

/-- The array index a property key denotes, if any: the canonical decimal numeral of an
integer from `0` to `2^32 - 2`. -/
def arrayIndex (key : JSString) : Option Nat :=
  match key with
  | [] => none
  | c :: cs =>
    if (c :: cs).all (fun d => 0x30 ≤ d && d ≤ 0x39) && (c != 0x30 || cs.isEmpty) then
      let n := (c :: cs).foldl (fun a d => 10 * a + (d.toNat - 0x30)) 0
      if n ≤ 4294967294 then some n else none
    else none

/-- Whether a property comes before array index `i` in property order. -/
def precedesIndex (i : Nat) (p : JSString × JSValue) : Bool :=
  match arrayIndex p.1 with
  | some j => decide (j < i)
  | none => false

/-- Creating or overwriting the own data property `key`: an existing property keeps its
place and takes the new value; a new array-index key goes among the index keys in
ascending order, which come first; any other new key goes last. -/
def defineProp (props : Props) (key : JSString) (v : JSValue) : Props :=
  if props.any (fun p => p.1 == key) then
    props.map (fun p => if p.1 == key then (key, v) else p)
  else
    match arrayIndex key with
    | none => props ++ [(key, v)]
    | some i => props.takeWhile (precedesIndex i) ++ (key, v) :: props.dropWhile (precedesIndex i)

/-! ## ToString -/

/-- The text `ToString` gives when the call stack suffices. An array joins the texts of its
elements with commas, an `undefined` or `null` element giving the empty text. An object
converts through `Object.prototype.toString`, unless an own property `toString` hides that
method: the own property is not callable, `valueOf` yields no primitive, and `ToPrimitive`
throws. -/
def toText (E : Engine) : JSValue → Except JSError JSString
  | .undefined => pure (utf16 "undefined")
  | .null => pure (utf16 "null")
  | .bool b => pure (if b then utf16 "true" else utf16 "false")
  | .num n => pure (E.numberToString n)
  | .str s => pure s
  | .arr items => do
    let parts ← elements items
    pure (joinWith (utf16 ",") parts)
  | .obj props =>
    if props.any (fun p => p.1 == utf16 "toString") then throw (.notPrimitive (.obj props))
    else pure (utf16 "[object Object]")
where
  /-- The texts `Array.prototype.join` concatenates. -/
  elements : List JSValue → Except JSError (List JSString)
    | [] => pure []
    | .undefined :: vs => do
      let rest ← elements vs
      pure ([] :: rest)
    | .null :: vs => do
      let rest ← elements vs
      pure ([] :: rest)
    | v :: vs => do
      let s ← toText E v
      let rest ← elements vs
      pure (s :: rest)

/-- The `ToString` conversion: the text of the value, or for an array that is nested too
deeply for the call stack, a `RangeError`. -/
def toStr (E : Engine) (v : JSValue) : Except JSError JSString :=
  match v with
  | .arr items =>
    if E.joinOverflows (.arr items) then throw .rangeError else toText E (.arr items)
  | _ => toText E v

/-! ## JSON.stringify -/

/-- A lowercase hexadecimal digit. -/
def hexDigit (n : Nat) : CodeUnit :=
  if n < 10 then (0x30 + n).toUInt16 else (0x61 + (n - 10)).toUInt16

/-- The escape `\uXXXX` of a code unit, with four lowercase hexadecimal digits. -/
def unicodeEscape (c : CodeUnit) : JSString :=
  [0x5C, 0x75, hexDigit (c.toNat / 4096), hexDigit (c.toNat / 256 % 16),
   hexDigit (c.toNat / 16 % 16), hexDigit (c.toNat % 16)]

/-- The characters of a quoted JSON string (`QuoteJSONString` without the two quotes): the
short escapes for backspace, tab, line feed, form feed, carriage return, the quote and the
backslash; `\uXXXX` for the other code units below U+0020 and for a surrogate that is not
part of a pair; every other code unit as it is. -/
def quoteChars : JSString → JSString
  | [] => []
  | [c] => quoteUnit c
  | c :: d :: rest =>
    if 0xD800 ≤ c ∧ c ≤ 0xDBFF ∧ 0xDC00 ≤ d ∧ d ≤ 0xDFFF then c :: d :: quoteChars rest
    else quoteUnit c ++ quoteChars (d :: rest)
where
  /-- The text for one code unit that is not the first half of a surrogate pair. -/
  quoteUnit (c : CodeUnit) : JSString :=
    if c = 0x08 then utf16 "\\b"
    else if c = 0x09 then utf16 "\\t"
    else if c = 0x0A then utf16 "\\n"
    else if c = 0x0C then utf16 "\\f"
    else if c = 0x0D then utf16 "\\r"
    else if c = 0x22 then utf16 "\\\""
    else if c = 0x5C then utf16 "\\\\"
    else if c < 0x20 ∨ (0xD800 ≤ c ∧ c ≤ 0xDFFF) then unicodeEscape c
    else [c]

/-- The JSON text of a String: `QuoteJSONString`. -/
def quote (s : JSString) : JSString :=
  0x22 :: quoteChars s ++ [0x22]

/-- The JSON text of a value: what `SerializeJSONProperty` builds (no replacer, no
indentation) when the call stack suffices, `none` where ECMAScript yields `undefined`. A
Number that is not finite gives `null`; in an array an `undefined` element gives `null`; in
an object a property whose value is `undefined` is left out. This is the text, not the call:
the call is `JSON.stringify`, which can throw. -/
def jsonText (E : Engine) : JSValue → Option JSString
  | .undefined => none
  | .null => some (utf16 "null")
  | .bool b => some (if b then utf16 "true" else utf16 "false")
  | .num n => some (if n.isFinite then E.numberToString n else utf16 "null")
  | .str s => some (quote s)
  | .arr items => some (0x5B :: joinWith (utf16 ",") (elements items) ++ [0x5D])
  | .obj props => some (0x7B :: joinWith (utf16 ",") (members props) ++ [0x7D])
where
  /-- The texts of the elements of an array. -/
  elements : List JSValue → List JSString
    | [] => []
    | v :: vs => (jsonText E v).getD (utf16 "null") :: elements vs
  /-- The texts `key:value` of the properties of an object. -/
  members : Props → List JSString
    | [] => []
    | (k, v) :: ps =>
      match jsonText E v with
      | some s => (quote k ++ 0x3A :: s) :: members ps
      | none => members ps

/-- The value `JSON.stringify(v)` returns when it returns: the JSON text of `v` as a String,
or `undefined`. -/
def JSON.encoding (E : Engine) (v : JSValue) : JSValue :=
  match jsonText E v with
  | some s => .str s
  | none => .undefined

/-- The call `JSON.stringify(v)`: a `RangeError` when `v` is nested too deeply for the call
stack of the engine, otherwise the encoding of `v`. -/
def JSON.stringify (E : Engine) (v : JSValue) : Except JSError JSValue :=
  if E.stringifyOverflows v then throw .rangeError else pure (JSON.encoding E v)

/-! ## JSON.parse -/

/-- JSON white space: tab, line feed, carriage return and space are skipped. -/
def skipWs : JSString → JSString
  | [] => []
  | c :: cs => if c = 0x20 ∨ c = 0x09 ∨ c = 0x0A ∨ c = 0x0D then skipWs cs else c :: cs

/-- The value of a hexadecimal digit, in either case. -/
def hexValue (c : CodeUnit) : Option Nat :=
  if 0x30 ≤ c ∧ c ≤ 0x39 then some (c.toNat - 0x30)
  else if 0x61 ≤ c ∧ c ≤ 0x66 then some (c.toNat - 0x61 + 10)
  else if 0x41 ≤ c ∧ c ≤ 0x46 then some (c.toNat - 0x41 + 10)
  else none

/-- The character a one-letter escape stands for. -/
def escapeValue (e : CodeUnit) : Option CodeUnit :=
  if e = 0x22 then some 0x22
  else if e = 0x5C then some 0x5C
  else if e = 0x2F then some 0x2F
  else if e = 0x62 then some 0x08
  else if e = 0x66 then some 0x0C
  else if e = 0x6E then some 0x0A
  else if e = 0x72 then some 0x0D
  else if e = 0x74 then some 0x09
  else none

/-- The rest of a JSON string after its opening quote: the String value it denotes and the
text after the closing quote. A code unit below U+0020 may not occur unescaped. -/
def parseChars : JSString → Option (JSString × JSString)
  | [] => none
  | c :: cs =>
    if c = 0x22 then some ([], cs)
    else if c = 0x5C then
      match cs with
      | [] => none
      | e :: cs1 =>
        if e = 0x75 then
          match cs1 with
          | h1 :: h2 :: h3 :: h4 :: cs2 =>
            match hexValue h1, hexValue h2, hexValue h3, hexValue h4 with
            | some a, some b, some c, some d =>
              (parseChars cs2).map fun r =>
                ((((a * 16 + b) * 16 + c) * 16 + d).toUInt16 :: r.1, r.2)
            | _, _, _, _ => none
          | _ => none
        else
          match escapeValue e with
          | some u => (parseChars cs1).map fun r => (u :: r.1, r.2)
          | none => none
    else if c < 0x20 then none
    else (parseChars cs).map fun r => (c :: r.1, r.2)

/-- The leading decimal digits of a text, and the text after them. -/
def takeDigits : JSString → List Nat × JSString
  | [] => ([], [])
  | c :: cs =>
    if 0x30 ≤ c ∧ c ≤ 0x39 then ((c.toNat - 0x30) :: (takeDigits cs).1, (takeDigits cs).2)
    else ([], c :: cs)

/-- The number a list of decimal digits denotes. -/
def digitsValue (ds : List Nat) : Nat :=
  ds.foldl (fun a d => 10 * a + d) 0

/-- The integer part of a JSON number: a single `0`, or digits that do not start with `0`. -/
def parseInt (cs : JSString) : Option (List Nat × JSString) :=
  match cs with
  | [] => none
  | c :: rest =>
    if c = 0x30 then some ([0], rest)
    else
      match takeDigits (c :: rest) with
      | ([], _) => none
      | (d :: ds, rest1) => some (d :: ds, rest1)

/-- The optional fraction of a JSON number: a point followed by at least one digit. -/
def parseFrac (cs : JSString) : Option (List Nat × JSString) :=
  match cs with
  | [] => some ([], [])
  | c :: rest =>
    if c = 0x2E then
      match takeDigits rest with
      | ([], _) => none
      | (d :: ds, rest1) => some (d :: ds, rest1)
    else some ([], c :: rest)

/-- The optional exponent of a JSON number: `e` or `E`, an optional sign, at least one digit. -/
def parseExp (cs : JSString) : Option (Int × JSString) :=
  match cs with
  | [] => some (0, [])
  | c :: rest =>
    if c = 0x65 ∨ c = 0x45 then
      match rest with
      | [] => none
      | s :: rest1 =>
        if s = 0x2D then
          match takeDigits rest1 with
          | ([], _) => none
          | (d :: ds, rest2) => some (-(digitsValue (d :: ds) : Int), rest2)
        else
          match takeDigits (if s = 0x2B then rest1 else s :: rest1) with
          | ([], _) => none
          | (d :: ds, rest2) => some ((digitsValue (d :: ds) : Int), rest2)
    else some (0, c :: rest)

/-- A JSON number: optional minus, integer part, optional fraction, optional exponent. -/
def parseNumber (cs : JSString) : Option (JSNumber × JSString) :=
  let neg := cs.head? == some 0x2D
  match parseInt (if neg then cs.tail else cs) with
  | none => none
  | some (i, cs1) =>
    match parseFrac cs1 with
    | none => none
    | some (f, cs2) =>
      match parseExp cs2 with
      | none => none
      | some (e, cs3) => some (⟨neg, digitsValue (i ++ f), e - f.length⟩, cs3)

/-- The outcome of parsing a prefix of a text. -/
inductive Parse where
  /-- A value was read; `rest` is the text after it. -/
  | ok (v : JSValue) (rest : JSString)
  /-- The text is not JSON: `JSON.parse` throws a `SyntaxError`. -/
  | bad
  /-- The recursion budget ran out (never, with the budget `JSON.parse` gives). -/
  | outOfFuel

/-- Whether a text starts with the given code units; the text after them. -/
def dropPrefix : JSString → JSString → Option JSString
  | [], cs => some cs
  | _ :: _, [] => none
  | p :: ps, c :: cs => if p = c then dropPrefix ps cs else none

mutual
/-- One JSON value, after optional white space. -/
def parseValue : Nat → JSString → Parse
  | 0, _ => .outOfFuel
  | fuel + 1, cs =>
    match skipWs cs with
    | [] => .bad
    | c :: rest =>
      if c = 0x7B then
        match skipWs rest with
        | [] => .bad
        | d :: rest1 => if d = 0x7D then .ok (.obj []) rest1 else parseMembers fuel [] (d :: rest1)
      else if c = 0x5B then
        match skipWs rest with
        | [] => .bad
        | d :: rest1 => if d = 0x5D then .ok (.arr []) rest1 else parseElements fuel [] (d :: rest1)
      else if c = 0x22 then
        match parseChars rest with
        | some (s, rest1) => .ok (.str s) rest1
        | none => .bad
      else if c = 0x74 then
        match dropPrefix (utf16 "rue") rest with
        | some rest1 => .ok (.bool true) rest1
        | none => .bad
      else if c = 0x66 then
        match dropPrefix (utf16 "alse") rest with
        | some rest1 => .ok (.bool false) rest1
        | none => .bad
      else if c = 0x6E then
        match dropPrefix (utf16 "ull") rest with
        | some rest1 => .ok .null rest1
        | none => .bad
      else
        match parseNumber (c :: rest) with
        | some (n, rest1) => .ok (.num n) rest1
        | none => .bad
/-- The elements of an array after `[`, up to and including `]`; `acc` holds the elements
read so far. -/
def parseElements : Nat → List JSValue → JSString → Parse
  | 0, _, _ => .outOfFuel
  | fuel + 1, acc, cs =>
    match parseValue fuel cs with
    | .ok v rest =>
      match skipWs rest with
      | [] => .bad
      | d :: rest1 =>
        if d = 0x2C then parseElements fuel (acc ++ [v]) rest1
        else if d = 0x5D then .ok (.arr (acc ++ [v])) rest1
        else .bad
    | .bad => .bad
    | .outOfFuel => .outOfFuel
/-- The members of an object after `{`, up to and including `}`; `acc` holds the properties
created so far. A repeated key overwrites the earlier value. -/
def parseMembers : Nat → Props → JSString → Parse
  | 0, _, _ => .outOfFuel
  | fuel + 1, acc, cs =>
    match skipWs cs with
    | [] => .bad
    | q :: rest =>
      if q = 0x22 then
        match parseChars rest with
        | none => .bad
        | some (key, rest1) =>
          match skipWs rest1 with
          | [] => .bad
          | colon :: rest2 =>
            if colon = 0x3A then
              match parseValue fuel rest2 with
              | .ok v rest3 =>
                match skipWs rest3 with
                | [] => .bad
                | d :: rest4 =>
                  if d = 0x2C then parseMembers fuel (defineProp acc key v) rest4
                  else if d = 0x7D then .ok (.obj (defineProp acc key v)) rest4
                  else .bad
              | .bad => .bad
              | .outOfFuel => .outOfFuel
            else .bad
      else .bad
end

/-- What the recursion budget guarantees for one of the three parsers: it is not used up,
and a value that is read consumes at least one code unit. -/
def Parse.Fits (cs : JSString) (r : Parse) : Prop :=
  r ≠ .outOfFuel ∧ ∀ v rest, r = .ok v rest → rest.length < cs.length

/-- What every parser result is: never the value `undefined`. -/
def Parse.Defined (r : Parse) : Prop :=
  ∀ rest, r ≠ .ok .undefined rest

/-- The value a JSON text denotes, `none` when the text is not JSON: one value, with
nothing but white space around it. The budget is never used up (`parseValue_fuel`). Engines
parse with a stack of their own, not the call stack, so nesting is bounded by memory alone;
running out of memory is not modelled. -/
def parseText (text : JSString) : Option JSValue :=
  match parseValue (2 * text.length + 1) text with
  | .ok v rest => if (skipWs rest).isEmpty then some v else none
  | _ => none

/-- The call `JSON.parse(arg)` with no reviver: the argument is converted to a String, and a
text that is not JSON throws a `SyntaxError`. -/
def JSON.parse (E : Engine) (arg : JSValue) : Except JSError JSValue := do
  let text ← toStr E arg
  match parseText text with
  | some v => pure v
  | none => throw (.syntaxError text)

/-! ## The process environment -/

/-- The part of `process.env` the handlers read: the variable `REGION`, a String when it is
set. -/
structure ProcessEnv where
  REGION : Option JSString

/-- The value of the expression `process.env.REGION`: the variable's text, or `undefined`
when it is not set. -/
def envREGION (env : ProcessEnv) : JSValue :=
  match env.REGION with
  | some s => .str s
  | none => .undefined

end JS

open JS

/-! ## code/app/handler.js -/

/-- The initialiser of `const method` in `exports.handler`:
`(event.httpMethod || (event.requestContext && event.requestContext.http &&
event.requestContext.http.method)) || 'GET'`. -/
def handler.method (event : JSValue) : Except JSError JSValue :=
  logicalOr
    (logicalOr (get event (utf16 "httpMethod")) fun _ =>
      logicalAnd
        (logicalAnd (get event (utf16 "requestContext")) fun _ => do
          let requestContext ← get event (utf16 "requestContext")
          get requestContext (utf16 "http"))
        fun _ => do
          let requestContext ← get event (utf16 "requestContext")
          let http ← get requestContext (utf16 "http")
          get http (utf16 "method"))
    fun _ => pure (.str (utf16 "GET"))

/-- The `try` block of `exports.handler`: the response it returns, or the exception it
throws. -/
def handler.tryBlock (E : Engine) (env : ProcessEnv) (event : JSValue) :
    Except JSError JSValue := do
  let method ← handler.method event
  if strictEqualsString method (utf16 "GET") then
    let region ← logicalOr (pure (envREGION env)) fun _ => pure (.str (utf16 "aws-unknown"))
    let body ← JSON.stringify E (.obj [
      (utf16 "region", region),
      (utf16 "status", .str (utf16 "ok"))])
    pure (.obj [
      (utf16 "statusCode", .num (.ofNat 200)),
      (utf16 "body", body)])
  else if strictEqualsString method (utf16 "POST") then
    let text ← logicalOr (get event (utf16 "body")) fun _ => pure (.str (utf16 "\x7b\x7d"))
    let body ← JSON.parse E text
    let id ← logicalOr (get body (utf16 "userId")) fun _ => pure (.str (utf16 "generated-id"))
    let encoded ← JSON.stringify E (.obj [(utf16 "id", id)])
    pure (.obj [
      (utf16 "statusCode", .num (.ofNat 201)),
      (utf16 "body", encoded)])
  else
    pure (.obj [
      (utf16 "statusCode", .num (.ofNat 405)),
      (utf16 "body", .str (utf16 "Method not allowed"))])

/-- The function `exports.handler`: the value its promise resolves to, or the exception that
rejects it. The `catch` clause turns every exception of the `try` block into a response; the
object it serialises holds one String, so the promise never rejects (`handler_resolves`). -/
def handler (E : Engine) (env : ProcessEnv) (event : JSValue) : Except JSError JSValue :=
  match handler.tryBlock E env event with
  | .ok response => pure response
  | .error err => do
    let body ← JSON.stringify E (.obj [(utf16 "error", .str (E.errorToString err))])
    pure (.obj [
      (utf16 "statusCode", .num (.ofNat 500)),
      (utf16 "body", body)])

/-! ## code/app/azure_function/index.js -/

/-- The function `module.exports` of the Azure function: the own properties of the object
`context` when the call ends, or the exception that rejects the promise. `context` is an
object; the assignment `context.res = v` creates or overwrites its property `res`. -/
def azure_function (env : ProcessEnv) (context : Props) (req : JSValue) :
    Except JSError Props := do
  if strictEqualsString (← get req (utf16 "method")) (utf16 "GET") then
    let region ← logicalOr (pure (envREGION env)) fun _ => pure (.str (utf16 "azure-unknown"))
    pure (defineProp context (utf16 "res") (.obj [
      (utf16 "status", .num (.ofNat 200)),
      (utf16 "body", .obj [
        (utf16 "region", region),
        (utf16 "status", .str (utf16 "ok"))])]))
  else if strictEqualsString (← get req (utf16 "method")) (utf16 "POST") then
    let body ← logicalOr (get req (utf16 "body")) fun _ => pure (.obj [])
    let id ← logicalOr (get body (utf16 "userId")) fun _ => pure (.str (utf16 "generated-id"))
    pure (defineProp context (utf16 "res") (.obj [
      (utf16 "status", .num (.ofNat 201)),
      (utf16 "body", .obj [(utf16 "id", id)])]))
  else
    pure (defineProp context (utf16 "res") (.obj [
      (utf16 "status", .num (.ofNat 405)),
      (utf16 "body", .str (utf16 "Method not allowed"))]))

/-! ## Vocabulary of the statements -/

/-- The object `{ statusCode: code, body: body }` that `exports.handler` returns. -/
def lambdaResponse (code : Nat) (body : JSValue) : JSValue :=
  .obj [(utf16 "statusCode", .num (.ofNat code)), (utf16 "body", body)]

/-- The object `{ status: code, body: body }` that the Azure function assigns to
`context.res`. -/
def azureResponse (code : Nat) (body : JSValue) : JSValue :=
  .obj [(utf16 "status", .num (.ofNat code)), (utf16 "body", body)]

/-- The region a `GET` response reports: the text of `REGION` when the variable is set and
not empty, otherwise the fallback of the handler. -/
def reportedRegion (env : ProcessEnv) (fallback : JSString) : JSString :=
  match env.REGION with
  | some r => if r.isEmpty then fallback else r
  | none => fallback

/-- The body of a `GET` response before encoding: `{ region: region, status: 'ok' }`. -/
def regionBody (region : JSString) : JSValue :=
  .obj [(utf16 "region", .str region), (utf16 "status", .str (utf16 "ok"))]

/-- The body of a `POST` response before encoding: `{ id: id }`. -/
def idBody (id : JSValue) : JSValue :=
  .obj [(utf16 "id", id)]

/-- The body of the response of the `catch` clause before encoding: `{ error: String(err) }`. -/
def errorBody (E : Engine) (err : JSError) : JSValue :=
  .obj [(utf16 "error", .str (E.errorToString err))]

/-- The `id` of a `POST` response for a body whose property `userId` reads as `userId`: that
value when it is truthy, otherwise the text `generated-id`. -/
def responseId (userId : JSValue) : JSValue :=
  if toBoolean userId then userId else .str (utf16 "generated-id")

/-! ## The parser: budget and results -/

namespace JS

theorem skipWs_length_le (cs : JSString) : (skipWs cs).length ≤ cs.length := by
  induction cs with
  | nil => simp [skipWs]
  | cons c cs ih =>
    unfold skipWs
    split
    · simp only [List.length_cons]; omega
    · exact Nat.le_refl _

theorem skipWs_cons_length {cs : JSString} {d : CodeUnit} {rest : JSString}
    (h : skipWs cs = d :: rest) : rest.length < cs.length := by
  have := skipWs_length_le cs
  rw [h] at this
  simp only [List.length_cons] at this
  omega

theorem parseChars_length_aux (n : Nat) :
    ∀ cs : JSString, cs.length ≤ n →
      ∀ s rest, parseChars cs = some (s, rest) → rest.length < cs.length := by
  induction n using Nat.strong_induction_on with
  | _ n ih =>
    intro cs hn s rest h
    unfold parseChars at h
    split at h
    · exact absurd h (by simp)
    · rename_i c cs0
      simp only [List.length_cons] at hn ⊢
      split at h
      · simp only [Option.some.injEq, Prod.mk.injEq] at h
        obtain ⟨-, h2⟩ := h
        subst h2; omega
      · split at h
        · split at h
          · exact absurd h (by simp)
          · rename_i e cs1
            simp only [List.length_cons] at hn ⊢
            split at h
            · split at h
              · rename_i h1 h2 h3 h4 cs2
                simp only [List.length_cons] at hn ⊢
                split at h
                · simp only [Option.map_eq_some', Prod.mk.injEq] at h
                  obtain ⟨r, hr, -, h2⟩ := h
                  have := ih cs2.length (by omega) cs2 (Nat.le_refl _) r.1 r.2 hr
                  subst h2; omega
                · exact absurd h (by simp)
              · exact absurd h (by simp)
            · split at h
              · simp only [Option.map_eq_some', Prod.mk.injEq] at h
                obtain ⟨r, hr, -, h2⟩ := h
                have := ih cs1.length (by omega) cs1 (Nat.le_refl _) r.1 r.2 hr
                subst h2; omega
              · exact absurd h (by simp)
        · split at h
          · exact absurd h (by simp)
          · simp only [Option.map_eq_some', Prod.mk.injEq] at h
            obtain ⟨r, hr, -, h2⟩ := h
            have := ih cs0.length (by omega) cs0 (Nat.le_refl _) r.1 r.2 hr
            subst h2; omega

theorem parseChars_length {cs s rest : JSString} (h : parseChars cs = some (s, rest)) :
    rest.length < cs.length :=
  parseChars_length_aux cs.length cs (Nat.le_refl _) s rest h

theorem takeDigits_length (cs : JSString) :
    (takeDigits cs).1.length + (takeDigits cs).2.length = cs.length := by
  induction cs with
  | nil => simp [takeDigits]
  | cons c cs ih =>
    unfold takeDigits
    split
    · simp only [List.length_cons]; omega
    · simp

theorem dropPrefix_length (p : JSString) :
    ∀ cs rest : JSString, dropPrefix p cs = some rest → rest.length ≤ cs.length := by
  induction p with
  | nil => intro cs rest h; simp [dropPrefix] at h; simp [h]
  | cons a p ih =>
    intro cs rest h
    cases cs with
    | nil => simp [dropPrefix] at h
    | cons c cs =>
      simp only [dropPrefix] at h
      split at h
      · have := ih cs rest h
        simp only [List.length_cons]; omega
      · exact absurd h (by simp)

theorem parseInt_length {cs : JSString} {ds : List Nat} {rest : JSString}
    (h : parseInt cs = some (ds, rest)) : rest.length < cs.length := by
  unfold parseInt at h
  split at h
  · exact absurd h (by simp)
  · rename_i c cs0
    split at h
    · simp only [Option.some.injEq, Prod.mk.injEq] at h
      obtain ⟨-, h2⟩ := h
      subst h2
      simp only [List.length_cons]; omega
    · split at h
      · exact absurd h (by simp)
      · rename_i d ds0 rest1 heq
        simp only [Option.some.injEq, Prod.mk.injEq] at h
        have := takeDigits_length (c :: cs0)
        rw [heq] at this
        simp only [List.length_cons] at this ⊢
        obtain ⟨-, h2⟩ := h
        subst h2; omega

theorem parseFrac_length {cs : JSString} {ds : List Nat} {rest : JSString}
    (h : parseFrac cs = some (ds, rest)) : rest.length ≤ cs.length := by
  unfold parseFrac at h
  split at h
  · simp only [Option.some.injEq, Prod.mk.injEq] at h
    simp [← h.2]
  · rename_i c cs0
    split at h
    · split at h
      · exact absurd h (by simp)
      · rename_i d ds0 rest1 heq
        simp only [Option.some.injEq, Prod.mk.injEq] at h
        have := takeDigits_length cs0
        rw [heq] at this
        simp only [List.length_cons] at this ⊢
        obtain ⟨-, h2⟩ := h
        subst h2; omega
    · simp only [Option.some.injEq, Prod.mk.injEq] at h
      simp [← h.2]

theorem parseExp_length {cs : JSString} {e : Int} {rest : JSString}
    (h : parseExp cs = some (e, rest)) : rest.length ≤ cs.length := by
  unfold parseExp at h
  split at h
  · simp only [Option.some.injEq, Prod.mk.injEq] at h
    simp [← h.2]
  · rename_i c cs0
    split at h
    · split at h
      · exact absurd h (by simp)
      · rename_i s rest1
        split at h
        · split at h
          · exact absurd h (by simp)
          · rename_i d ds0 rest2 heq
            simp only [Option.some.injEq, Prod.mk.injEq] at h
            have := takeDigits_length rest1
            rw [heq] at this
            simp only [List.length_cons] at this ⊢
            obtain ⟨-, h2⟩ := h
            subst h2; omega
        · split at h
          · exact absurd h (by simp)
          · rename_i d ds0 rest2 heq
            simp only [Option.some.injEq, Prod.mk.injEq] at h
            have := takeDigits_length (if s = 0x2B then rest1 else s :: rest1)
            rw [heq] at this
            obtain ⟨-, h2⟩ := h
            subst h2
            split at this <;> simp only [List.length_cons] at this ⊢ <;> omega
    · simp only [Option.some.injEq, Prod.mk.injEq] at h
      simp [← h.2]

theorem parseNumber_length {cs : JSString} {n : JSNumber} {rest : JSString}
    (h : parseNumber cs = some (n, rest)) : rest.length < cs.length := by
  unfold parseNumber at h
  simp only at h
  split at h
  · exact absurd h (by simp)
  · rename_i i cs1 hi
    split at h
    · exact absurd h (by simp)
    · rename_i f cs2 hf
      split at h
      · exact absurd h (by simp)
      · rename_i e cs3 he
        simp only [Option.some.injEq, Prod.mk.injEq] at h
        have h1 := parseInt_length hi
        have h2 := parseFrac_length hf
        have h3 := parseExp_length he
        have h4 : (if (cs.head? == some 0x2D) = true then cs.tail else cs).length ≤ cs.length := by
          split
          · simp
          · exact Nat.le_refl _
        obtain ⟨-, h5⟩ := h
        subst h5; omega

theorem Parse.fits_bad (cs : JSString) : Parse.Fits cs .bad :=
  ⟨by simp, by simp⟩

theorem Parse.fits_ok {cs rest : JSString} (v : JSValue) (h : rest.length < cs.length) :
    Parse.Fits cs (.ok v rest) :=
  ⟨by simp, by intro v1 rest1 h1; cases h1; exact h⟩

theorem Parse.Fits.mono {cs cs1 : JSString} {r : Parse} (h : Parse.Fits cs1 r)
    (hle : cs1.length ≤ cs.length) : Parse.Fits cs r :=
  ⟨h.1, fun v rest hr => Nat.lt_of_lt_of_le (h.2 v rest hr) hle⟩

theorem parse_fits (fuel : Nat) :
    (∀ cs, 2 * cs.length < fuel → Parse.Fits cs (parseValue fuel cs)) ∧
    (∀ acc cs, 2 * cs.length + 1 < fuel → Parse.Fits cs (parseElements fuel acc cs)) ∧
    (∀ acc cs, 2 * cs.length + 1 < fuel → Parse.Fits cs (parseMembers fuel acc cs)) := by
  induction fuel with
  | zero => exact ⟨fun _ h => by omega, fun _ _ h => by omega, fun _ _ h => by omega⟩
  | succ fuel ih =>
    obtain ⟨ihV, ihE, ihM⟩ := ih
    refine ⟨?_, ?_, ?_⟩
    · intro cs hf
      rw [parseValue]
      split
      · exact Parse.fits_bad _
      · rename_i c rest hws
        have hrest := skipWs_cons_length hws
        split
        · split
          · exact Parse.fits_bad _
          · rename_i d rest1 hws1
            have hrest1 := skipWs_cons_length hws1
            split
            · exact Parse.fits_ok _ (by omega)
            · exact (ihM [] (d :: rest1) (by simp only [List.length_cons]; omega)).mono
                (by simp only [List.length_cons]; omega)
        · split
          · split
            · exact Parse.fits_bad _
            · rename_i d rest1 hws1
              have hrest1 := skipWs_cons_length hws1
              split
              · exact Parse.fits_ok _ (by omega)
              · exact (ihE [] (d :: rest1) (by simp only [List.length_cons]; omega)).mono
                  (by simp only [List.length_cons]; omega)
          · split
            · split
              · rename_i s rest1 hs
                exact Parse.fits_ok _ (by have := parseChars_length hs; omega)
              · exact Parse.fits_bad _
            · split
              · split
                · rename_i rest1 hp
                  exact Parse.fits_ok _ (by have := dropPrefix_length _ _ _ hp; omega)
                · exact Parse.fits_bad _
              · split
                · split
                  · rename_i rest1 hp
                    exact Parse.fits_ok _ (by have := dropPrefix_length _ _ _ hp; omega)
                  · exact Parse.fits_bad _
                · split
                  · split
                    · rename_i rest1 hp
                      exact Parse.fits_ok _ (by have := dropPrefix_length _ _ _ hp; omega)
                    · exact Parse.fits_bad _
                  · split
                    · rename_i n rest1 hn
                      have := parseNumber_length hn
                      have h0 := skipWs_length_le cs
                      rw [hws] at h0
                      exact Parse.fits_ok _ (by omega)
                    · exact Parse.fits_bad _
    · intro acc cs hf
      rw [parseElements]
      have hv := ihV cs (by omega)
      split
      · rename_i v rest hp
        have hrest := hv.2 v rest hp
        split
        · exact Parse.fits_bad _
        · rename_i d rest1 hws1
          have hrest1 := skipWs_cons_length hws1
          split
          · exact (ihE _ rest1 (by omega)).mono (by omega)
          · split
            · exact Parse.fits_ok _ (by omega)
            · exact Parse.fits_bad _
      · exact Parse.fits_bad _
      · rename_i hp
        exact absurd hp hv.1
    · intro acc cs hf
      rw [parseMembers]
      split
      · exact Parse.fits_bad _
      · rename_i q rest hws
        have hrest := skipWs_cons_length hws
        split
        · split
          · exact Parse.fits_bad _
          · rename_i key rest1 hk
            have hrest1 := parseChars_length hk
            split
            · exact Parse.fits_bad _
            · rename_i colon rest2 hws2
              have hrest2 := skipWs_cons_length hws2
              split
              · have hv := ihV rest2 (by omega)
                split
                · rename_i v rest3 hp
                  have hrest3 := hv.2 v rest3 hp
                  split
                  · exact Parse.fits_bad _
                  · rename_i d rest4 hws4
                    have hrest4 := skipWs_cons_length hws4
                    split
                    · exact (ihM _ rest4 (by omega)).mono (by omega)
                    · split
                      · exact Parse.fits_ok _ (by omega)
                      · exact Parse.fits_bad _
                · exact Parse.fits_bad _
                · rename_i hp
                  exact absurd hp hv.1
              · exact Parse.fits_bad _
        · exact Parse.fits_bad _

/-- The budget `parseText` gives is never used up: a text is either read or rejected. -/
theorem parseValue_fuel (text : JSString) :
    parseValue (2 * text.length + 1) text ≠ .outOfFuel :=
  ((parse_fits (2 * text.length + 1)).1 text (by omega)).1

theorem parse_defined (fuel : Nat) :
    (∀ cs, Parse.Defined (parseValue fuel cs)) ∧
    (∀ acc cs, Parse.Defined (parseElements fuel acc cs)) ∧
    (∀ acc cs, Parse.Defined (parseMembers fuel acc cs)) := by
  induction fuel with
  | zero =>
    refine ⟨fun cs rest => ?_, fun acc cs rest => ?_, fun acc cs rest => ?_⟩
    · rw [parseValue]; simp
    · rw [parseElements]; simp
    · rw [parseMembers]; simp
  | succ fuel ih =>
    obtain ⟨ihV, ihE, ihM⟩ := ih
    refine ⟨fun cs rest => ?_, fun acc cs rest => ?_, fun acc cs rest => ?_⟩
    · rw [parseValue]
      repeat' split
      all_goals first
        | exact ihM _ _ rest
        | exact ihE _ _ rest
        | simp
    · rw [parseElements]
      repeat' split
      all_goals first
        | exact ihE _ _ rest
        | simp
    · rw [parseMembers]
      repeat' split
      all_goals first
        | exact ihM _ _ rest
        | simp

/-- A JSON text never denotes `undefined`. -/
theorem parseText_ne_undefined (text : JSString) : parseText text ≠ some .undefined := by
  unfold parseText
  split
  · rename_i v rest h
    split
    · intro hv
      cases hv
      exact (parse_defined _).1 text rest h
    · simp
  · simp

end JS

/-! ## Evaluation lemmas -/

theorem logicalOr_ok (x : JSValue) (b : Unit → Except JSError JSValue) :
    logicalOr (.ok x) b = if toBoolean x then .ok x else b () := rfl

theorem logicalAnd_ok (x : JSValue) (b : Unit → Except JSError JSValue) :
    logicalAnd (.ok x) b = if toBoolean x then b () else .ok x := rfl

theorem region_or (env : ProcessEnv) (fallback : JSString) :
    logicalOr (pure (envREGION env)) (fun _ => pure (.str fallback)) =
      .ok (.str (reportedRegion env fallback)) := by
  cases env with
  | mk r =>
    cases r with
    | none => rfl
    | some r => cases r <;> rfl

theorem id_or (u : JSValue) :
    logicalOr (.ok u) (fun _ => pure (.str (utf16 "generated-id"))) = .ok (responseId u) := by
  rw [logicalOr_ok, responseId]
  split <;> rfl

theorem strictEqualsString_iff (v : JSValue) (lit : JSString) :
    strictEqualsString v lit = true ↔ v = .str lit := by
  cases v <;> simp [strictEqualsString]

theorem strictEqualsString_str_ne {s lit : JSString} (h : s ≠ lit) :
    strictEqualsString (.str s) lit = false := by
  simp [strictEqualsString, h]

theorem ok_bind {α β : Type} (x : α) (f : α → Except JSError β) :
    (Except.ok x >>= f) = f x := rfl

/-- A value with nothing nested inside it is serialised: the call returns its encoding. -/
theorem stringify_of_flat (E : Engine) (v : JSValue) (h : flat v = true) :
    JSON.stringify E v = .ok (JSON.encoding E v) := by
  unfold JSON.stringify
  rw [E.stringify_flat v h]
  rfl

/-- The call `JSON.stringify(v)` in terms of what the engine's stack allows. -/
theorem stringify_eq (E : Engine) (v : JSValue) :
    JSON.stringify E v =
      if E.stringifyOverflows v = true then .error .rangeError
      else .ok (JSON.encoding E v) := by
  unfold JSON.stringify
  split <;> rfl

theorem tryBlock_get (E : Engine) (env : ProcessEnv) (event : JSValue)
    (h : handler.method event = .ok (.str (utf16 "GET"))) :
    handler.tryBlock E env event =
      .ok (lambdaResponse 200
        (JSON.encoding E (regionBody (reportedRegion env (utf16 "aws-unknown"))))) := by
  have hs : strictEqualsString (.str (utf16 "GET")) (utf16 "GET") = true := rfl
  have hf := stringify_of_flat E (regionBody (reportedRegion env (utf16 "aws-unknown"))) rfl
  unfold handler.tryBlock
  rw [h, region_or]
  simp only [ok_bind, hs, if_true]
  exact (congrArg (fun r => r >>= fun body => pure (lambdaResponse 200 body)) hf)

theorem tryBlock_post (E : Engine) (env : ProcessEnv) (event : JSValue)
    (h : handler.method event = .ok (.str (utf16 "POST"))) :
    handler.tryBlock E env event = (do
      let text ← logicalOr (get event (utf16 "body")) fun _ => pure (.str (utf16 "\x7b\x7d"))
      let body ← JSON.parse E text
      let id ← logicalOr (get body (utf16 "userId")) fun _ => pure (.str (utf16 "generated-id"))
      let encoded ← JSON.stringify E (idBody id)
      pure (lambdaResponse 201 encoded)) := by
  unfold handler.tryBlock
  rw [h]
  rfl

theorem tryBlock_other (E : Engine) (env : ProcessEnv) (event : JSValue) (m : JSValue)
    (h : handler.method event = .ok m)
    (hg : strictEqualsString m (utf16 "GET") = false)
    (hp : strictEqualsString m (utf16 "POST") = false) :
    handler.tryBlock E env event =
      .ok (lambdaResponse 405 (.str (utf16 "Method not allowed"))) := by
  unfold handler.tryBlock
  rw [h]
  simp only [Except.bind, bind, hg, hp]
  rfl

theorem get_obj (props : Props) (key : JSString) :
    get (.obj props) key = .ok (getOwn props key) := rfl

/-- A truthy `event.httpMethod` is the dispatch method. -/
theorem method_of_httpMethod (event m : JSValue)
    (h : get event (utf16 "httpMethod") = .ok m) (hm : toBoolean m = true) :
    handler.method event = .ok m := by
  unfold handler.method
  rw [h, logicalOr_ok, if_pos hm, logicalOr_ok, if_pos hm]

/-- Reading a property from a truthy value does not throw. -/
theorem get_of_truthy (v : JSValue) (key : JSString) (h : toBoolean v = true) :
    ∃ x, get v key = .ok x := by
  cases v <;> simp [toBoolean] at h <;> exact ⟨_, rfl⟩

/-- The dispatch method of an event object whose `httpMethod` is falsy, in terms of the value
`nested` of `event.requestContext && event.requestContext.http &&
event.requestContext.http.method`. -/
theorem method_of_nested (props : Props) (nested : JSValue)
    (h : toBoolean (getOwn props (utf16 "httpMethod")) = false)
    (hn : logicalAnd
        (logicalAnd (get (.obj props) (utf16 "requestContext")) fun _ => do
          let requestContext ← get (.obj props) (utf16 "requestContext")
          get requestContext (utf16 "http"))
        (fun _ => do
          let requestContext ← get (.obj props) (utf16 "requestContext")
          let http ← get requestContext (utf16 "http")
          get http (utf16 "method")) = .ok nested) :
    handler.method (.obj props) =
      .ok (if toBoolean nested then nested else .str (utf16 "GET")) := by
  unfold handler.method
  rw [hn, get_obj, logicalOr_ok, h]
  simp only [Bool.false_eq_true, if_false, logicalOr_ok]
  split <;> rfl

theorem handler_of_tryBlock (E : Engine) (env : ProcessEnv) (event response : JSValue)
    (h : handler.tryBlock E env event = .ok response) :
    handler E env event = .ok response := by
  unfold handler
  rw [h]
  rfl

/-- An exception of the `try` block becomes the response of the `catch` clause. -/
theorem handler_of_tryBlock_error (E : Engine) (env : ProcessEnv) (event : JSValue)
    (err : JSError) (h : handler.tryBlock E env event = .error err) :
    handler E env event = .ok (lambdaResponse 500 (JSON.encoding E (errorBody E err))) := by
  have hf := stringify_of_flat E (errorBody E err) rfl
  unfold handler
  rw [h]
  exact (congrArg (fun r => r >>= fun body => pure (lambdaResponse 500 body)) hf)

/-- The promise of `exports.handler` never rejects. -/
theorem handler_resolves (E : Engine) (env : ProcessEnv) (event : JSValue) :
    ∃ response, handler E env event = .ok response := by
  cases h : handler.tryBlock E env event with
  | ok response => exact ⟨_, handler_of_tryBlock E env event response h⟩
  | error err => exact ⟨_, handler_of_tryBlock_error E env event err h⟩

theorem find_replaced (key : JSString) (v : JSValue) (props : Props)
    (h : props.any (fun p => p.1 == key) = true) :
    (props.map (fun p => if p.1 == key then (key, v) else p)).find? (fun p => p.1 == key) =
      some (key, v) := by
  induction props with
  | nil => simp at h
  | cons p ps ih =>
    by_cases hp : p.1 = key
    · rw [List.map_cons, List.find?_cons_of_pos] <;> simp [hp]
    · have h1 : ps.any (fun p => p.1 == key) = true := by
        simpa [hp] using h
      rw [List.map_cons, List.find?_cons_of_neg]
      · exact ih h1
      · simp [hp]

theorem getOwn_defineProp_res (context : Props) (v : JSValue) :
    getOwn (defineProp context (utf16 "res") v) (utf16 "res") = v := by
  unfold defineProp
  split
  · rename_i h
    rw [getOwn, find_replaced _ _ _ h]
  · rename_i h
    have hidx : arrayIndex (utf16 "res") = none := rfl
    rw [hidx]
    simp only [getOwn]
    have hnone : context.find? (fun p => p.1 == utf16 "res") = none := by
      rw [List.find?_eq_none]
      intro p hp hq
      exact h (List.any_eq_true.mpr ⟨p, hp, hq⟩)
    rw [List.find?_append, hnone]
    simp

theorem azure_get (env : ProcessEnv) (context : Props) (req : JSValue)
    (h : get req (utf16 "method") = .ok (.str (utf16 "GET"))) :
    azure_function env context req =
      .ok (defineProp context (utf16 "res")
        (azureResponse 200 (regionBody (reportedRegion env (utf16 "azure-unknown"))))) := by
  unfold azure_function
  rw [h, region_or]
  rfl

theorem azure_post (env : ProcessEnv) (context : Props) (req : JSValue)
    (h : get req (utf16 "method") = .ok (.str (utf16 "POST"))) :
    azure_function env context req = (do
      let body ← logicalOr (get req (utf16 "body")) fun _ => pure (.obj [])
      let id ← logicalOr (get body (utf16 "userId")) fun _ => pure (.str (utf16 "generated-id"))
      pure (defineProp context (utf16 "res") (azureResponse 201 (idBody id)))) := by
  unfold azure_function
  rw [h]
  rfl

theorem azure_other (env : ProcessEnv) (context : Props) (req m : JSValue)
    (h : get req (utf16 "method") = .ok m)
    (hg : strictEqualsString m (utf16 "GET") = false)
    (hp : strictEqualsString m (utf16 "POST") = false) :
    azure_function env context req =
      .ok (defineProp context (utf16 "res")
        (azureResponse 405 (.str (utf16 "Method not allowed")))) := by
  unfold azure_function
  rw [h]
  simp only [ok_bind, hg, hp]
  rfl

/-- The response of `exports.handler` is determined by the dispatch method and by what
`event.body` reads as. -/
theorem handler_congr (E : Engine) (env : ProcessEnv) (event1 event2 : JSValue)
    (hm : handler.method event1 = handler.method event2)
    (hb : get event1 (utf16 "body") = get event2 (utf16 "body")) :
    handler E env event1 = handler E env event2 := by
  unfold handler handler.tryBlock
  rw [hm, hb]

/-- What the Azure function assigns to `context.res` is determined by what `req.method` and
`req.body` read as; the object `context` has no part in it. -/
theorem azure_congr (env : ProcessEnv) (context1 context2 : Props) (req1 req2 : JSValue)
    (hm : get req1 (utf16 "method") = get req2 (utf16 "method"))
    (hb : get req1 (utf16 "body") = get req2 (utf16 "body")) :
    (azure_function env context1 req1).map (fun c => getOwn c (utf16 "res")) =
      (azure_function env context2 req2).map (fun c => getOwn c (utf16 "res")) := by
  unfold azure_function
  rw [hm, hb]
  cases get req2 (utf16 "method") with
  | error e => rfl
  | ok m =>
    simp only [ok_bind]
    split
    · rw [region_or]
      simp only [ok_bind, Except.map, pure, Except.pure, getOwn_defineProp_res]
    · split
      · cases logicalOr (get req2 (utf16 "body")) fun _ => pure (.obj []) with
        | error e => rfl
        | ok body =>
          simp only [ok_bind]
          cases logicalOr (get body (utf16 "userId"))
              fun _ => pure (.str (utf16 "generated-id")) with
          | error e => rfl
          | ok id => simp only [ok_bind, Except.map, pure, Except.pure, getOwn_defineProp_res]
      · simp only [Except.map, pure, Except.pure, getOwn_defineProp_res]

theorem parse_str_some (E : Engine) (s : JSString) (v : JSValue) (h : parseText s = some v) :
    JSON.parse E (.str s) = .ok v := by
  simp only [JSON.parse, toStr, toText, pure, Except.pure, ok_bind, h]

theorem parse_str_none (E : Engine) (s : JSString) (h : parseText s = none) :
    JSON.parse E (.str s) = .error (.syntaxError s) := by
  simp only [JSON.parse, toStr, toText, pure, Except.pure, ok_bind, h]
  rfl

theorem body_or_of_nonempty (event : JSValue) (s : JSString)
    (hb : get event (utf16 "body") = .ok (.str s)) (hs : s ≠ []) :
    logicalOr (get event (utf16 "body")) (fun _ => pure (.str (utf16 "\x7b\x7d"))) = .ok (.str s) := by
  rw [hb, logicalOr_ok]
  cases s with
  | nil => exact absurd rfl hs
  | cons c cs => rfl

/-- The dispatch method of an event object is always defined: no read throws. -/
theorem method_obj_ok (props : Props) : ∃ m, handler.method (.obj props) = .ok m := by
  by_cases ht : toBoolean (getOwn props (utf16 "httpMethod")) = true
  · exact ⟨_, method_of_httpMethod _ _ (get_obj props _) ht⟩
  · have hf : toBoolean (getOwn props (utf16 "httpMethod")) = false := by
      simpa using ht
    suffices h : ∃ nested, logicalAnd
        (logicalAnd (get (.obj props) (utf16 "requestContext")) fun _ => do
          let requestContext ← get (.obj props) (utf16 "requestContext")
          get requestContext (utf16 "http"))
        (fun _ => do
          let requestContext ← get (.obj props) (utf16 "requestContext")
          let http ← get requestContext (utf16 "http")
          get http (utf16 "method")) = .ok nested by
      obtain ⟨nested, hn⟩ := h
      exact ⟨_, method_of_nested props nested hf hn⟩
    rw [get_obj]
    by_cases hrc : toBoolean (getOwn props (utf16 "requestContext")) = true
    · obtain ⟨http, hhttp⟩ := get_of_truthy _ (utf16 "http") hrc
      simp only [logicalAnd_ok, hrc, if_true, ok_bind, hhttp]
      by_cases hh : toBoolean http = true
      · obtain ⟨x, hx⟩ := get_of_truthy _ (utf16 "method") hh
        exact ⟨x, by simp only [hh, if_true, hx]⟩
      · exact ⟨http, by simp only [hh, Bool.false_eq_true, if_false]⟩
    · have hrc2 : toBoolean (getOwn props (utf16 "requestContext")) = false := by
        simpa using hrc
      exact ⟨getOwn props (utf16 "requestContext"), by
        simp only [logicalAnd_ok, hrc2, Bool.false_eq_true, if_false]⟩

theorem lambdaResponse_code_inj {c d : Nat} {x y : JSValue}
    (h : lambdaResponse c x = lambdaResponse d y) : c = d := by
  simp only [lambdaResponse, JSNumber.ofNat, JSValue.obj.injEq, List.cons.injEq,
    Prod.mk.injEq, JSValue.num.injEq, JSNumber.mk.injEq] at h
  exact h.1.2.2.1

/-- A `POST` event whose body is missing or empty: the `try` block returns status 201 with
the generated id. -/
theorem tryBlock_post_empty (E : Engine) (env : ProcessEnv) (event : JSValue)
    (hm : handler.method event = .ok (.str (utf16 "POST")))
    (hor : logicalOr (get event (utf16 "body")) (fun _ => pure (.str (utf16 "\x7b\x7d"))) =
      .ok (.str (utf16 "\x7b\x7d"))) :
    handler.tryBlock E env event =
      .ok (lambdaResponse 201 (.str (utf16 "\x7b\"id\":\"generated-id\"\x7d"))) := by
  have hp : JSON.parse E (.str (utf16 "\x7b\x7d")) = .ok (.obj []) :=
    parse_str_some E _ _ rfl
  have hid : logicalOr (get (.obj []) (utf16 "userId"))
      (fun _ => pure (.str (utf16 "generated-id"))) = .ok (.str (utf16 "generated-id")) := rfl
  have hf := stringify_of_flat E (idBody (.str (utf16 "generated-id"))) rfl
  rw [tryBlock_post E env event hm, hor, ok_bind, hp, ok_bind, hid, ok_bind, hf]
  rfl

/-- A `POST` event whose body is a non-empty JSON text for a value `v` that has a readable
`userId`: the `try` block serialises `{ id }` and returns status 201, or throws what the
serialisation throws. -/
theorem tryBlock_post_parsed (E : Engine) (env : ProcessEnv) (event : JSValue)
    (s : JSString) (v u : JSValue)
    (hm : handler.method event = .ok (.str (utf16 "POST")))
    (hb : get event (utf16 "body") = .ok (.str s)) (hs : s ≠ [])
    (hp : parseText s = some v) (hu : get v (utf16 "userId") = .ok u) :
    handler.tryBlock E env event =
      if E.stringifyOverflows (idBody (responseId u)) = true then .error .rangeError
      else .ok (lambdaResponse 201 (JSON.encoding E (idBody (responseId u)))) := by
  rw [tryBlock_post E env event hm, body_or_of_nonempty event s hb hs, ok_bind,
    parse_str_some E s v hp, ok_bind, hu, id_or, ok_bind, stringify_eq]
  split <;> rfl

/-- The response to such an event: status 201 with the encoding of `{ id }`, or, when the
serialisation exhausts the stack, the status 500 of the `catch` clause. -/
theorem handler_post_parsed (E : Engine) (env : ProcessEnv) (event : JSValue)
    (s : JSString) (v u : JSValue)
    (hm : handler.method event = .ok (.str (utf16 "POST")))
    (hb : get event (utf16 "body") = .ok (.str s)) (hs : s ≠ [])
    (hp : parseText s = some v) (hu : get v (utf16 "userId") = .ok u) :
    handler E env event =
      if E.stringifyOverflows (idBody (responseId u)) = true then
        .ok (lambdaResponse 500 (JSON.encoding E (errorBody E .rangeError)))
      else .ok (lambdaResponse 201 (JSON.encoding E (idBody (responseId u)))) := by
  have h := tryBlock_post_parsed E env event s v u hm hb hs hp hu
  split
  · rename_i ho
    rw [if_pos ho] at h
    exact handler_of_tryBlock_error E env event _ h
  · rename_i ho
    rw [if_neg ho] at h
    exact handler_of_tryBlock E env event _ h

/-- A JSON text is not empty. -/
theorem ne_nil_of_parseText {s : JSString} {v : JSValue} (hp : parseText s = some v) :
    s ≠ [] := by
  rintro rfl
  have hnil : parseText ([] : JSString) = none := rfl
  rw [hnil] at hp
  cases hp

/-- Within the embedding, the events with a string or no body that `exports.handler` answers
with status 500 are `POST` events whose body is a non-empty string that is not JSON, or is
JSON for `null`, or is JSON for a value whose `{ id }` the engine cannot serialise. -/
theorem status_500_only (E : Engine) (env : ProcessEnv) (props : Props) (body : JSValue)
    (hb : getOwn props (utf16 "body") = .undefined ∨ getOwn props (utf16 "body") = .null ∨
      ∃ s, getOwn props (utf16 "body") = .str s)
    (h : handler E env (.obj props) = .ok (lambdaResponse 500 body)) :
    handler.method (.obj props) = .ok (.str (utf16 "POST")) ∧
    ∃ s, getOwn props (utf16 "body") = .str s ∧ s ≠ [] ∧
      (parseText s = none ∨ parseText s = some .null ∨
        ∃ v u, parseText s = some v ∧ get v (utf16 "userId") = .ok u ∧
          E.stringifyOverflows (idBody (responseId u)) = true) := by
  have hcode : ∀ (c : Nat) (x : JSValue), c ≠ 500 →
      handler.tryBlock E env (.obj props) = .ok (lambdaResponse c x) → False := by
    intro c x hc hx
    rw [handler_of_tryBlock _ _ _ _ hx] at h
    exact hc (lambdaResponse_code_inj (Except.ok.inj h))
  obtain ⟨m, hm⟩ := method_obj_ok props
  by_cases hG : strictEqualsString m (utf16 "GET") = true
  · rw [strictEqualsString_iff] at hG
    subst hG
    exact (hcode 200 _ (by decide) (tryBlock_get E env _ hm)).elim
  · by_cases hP : strictEqualsString m (utf16 "POST") = true
    · rw [strictEqualsString_iff] at hP
      subst hP
      refine ⟨hm, ?_⟩
      have hempty : logicalOr (get (.obj props) (utf16 "body"))
            (fun _ => pure (.str (utf16 "\x7b\x7d"))) = .ok (.str (utf16 "\x7b\x7d")) →
          False := fun hor =>
        hcode 201 _ (by decide) (tryBlock_post_empty E env _ hm hor)
      rcases hb with hb | hb | ⟨s, hb⟩
      · exact (hempty (by rw [get_obj, hb]; rfl)).elim
      · exact (hempty (by rw [get_obj, hb]; rfl)).elim
      · by_cases hs : s = []
        · subst hs
          exact (hempty (by rw [get_obj, hb]; rfl)).elim
        · refine ⟨s, hb, hs, ?_⟩
          cases hp : parseText s with
          | none => exact Or.inl rfl
          | some v =>
            right
            have hnext : ∀ u, get v (utf16 "userId") = .ok u →
                E.stringifyOverflows (idBody (responseId u)) = true := by
              intro u hu
              by_cases ho : E.stringifyOverflows (idBody (responseId u)) = true
              · exact ho
              · have ht := tryBlock_post_parsed E env (.obj props) s v u hm
                  (by rw [get_obj, hb]) hs hp hu
                rw [if_neg ho] at ht
                exact (hcode 201 _ (by decide) ht).elim
            cases v with
            | null => exact Or.inl rfl
            | undefined => exact absurd hp (parseText_ne_undefined s)
            | bool x => exact Or.inr ⟨_, _, rfl, rfl, hnext _ rfl⟩
            | num n => exact Or.inr ⟨_, _, rfl, rfl, hnext _ rfl⟩
            | str t => exact Or.inr ⟨_, _, rfl, rfl, hnext _ rfl⟩
            | arr items => exact Or.inr ⟨_, _, rfl, rfl, hnext _ rfl⟩
            | obj ps => exact Or.inr ⟨_, _, rfl, rfl, hnext _ rfl⟩
    · exact (hcode 405 _ (by decide) (tryBlock_other E env _ m hm (by simpa using hG)
        (by simpa using hP))).elim

/-! ## Responses of `exports.handler` -/

theorem handler_get (E : Engine) (env : ProcessEnv) (event : JSValue)
    (h : handler.method event = .ok (.str (utf16 "GET"))) :
    handler E env event =
      .ok (lambdaResponse 200
        (JSON.encoding E (regionBody (reportedRegion env (utf16 "aws-unknown"))))) :=
  handler_of_tryBlock E env event _ (tryBlock_get E env event h)

theorem handler_other (E : Engine) (env : ProcessEnv) (event m : JSValue)
    (h : handler.method event = .ok m)
    (hg : strictEqualsString m (utf16 "GET") = false)
    (hp : strictEqualsString m (utf16 "POST") = false) :
    handler E env event = .ok (lambdaResponse 405 (.str (utf16 "Method not allowed"))) :=
  handler_of_tryBlock E env event _ (tryBlock_other E env event m h hg hp)

theorem handler_post_empty (E : Engine) (env : ProcessEnv) (event : JSValue)
    (hm : handler.method event = .ok (.str (utf16 "POST")))
    (hor : logicalOr (get event (utf16 "body")) (fun _ => pure (.str (utf16 "\x7b\x7d"))) =
      .ok (.str (utf16 "\x7b\x7d"))) :
    handler E env event =
      .ok (lambdaResponse 201 (.str (utf16 "\x7b\"id\":\"generated-id\"\x7d"))) :=
  handler_of_tryBlock E env event _ (tryBlock_post_empty E env event hm hor)

/-- When the `id` is a primitive, `{ id }` has nothing nested inside it. -/
theorem flat_idBody (u : JSValue) (h : u.isPrimitive = true) :
    flat (idBody (responseId u)) = true := by
  unfold responseId
  split
  · simp [flat, idBody, h]
  · rfl

theorem handler_post_flat (E : Engine) (env : ProcessEnv) (event : JSValue)
    (s : JSString) (v u : JSValue)
    (hm : handler.method event = .ok (.str (utf16 "POST")))
    (hb : get event (utf16 "body") = .ok (.str s))
    (hp : parseText s = some v) (hu : get v (utf16 "userId") = .ok u)
    (hflat : u.isPrimitive = true) :
    handler E env event = .ok (lambdaResponse 201 (JSON.encoding E (idBody (responseId u)))) := by
  rw [handler_post_parsed E env event s v u hm hb (ne_nil_of_parseText hp) hp hu,
    if_neg (by rw [E.stringify_flat _ (flat_idBody u hflat)]; simp)]

/-- A `POST` event whose body is a non-empty string that is not JSON: the `SyntaxError` of
the parse reaches the `catch` clause. -/
theorem handler_post_bad (E : Engine) (env : ProcessEnv) (event : JSValue) (s : JSString)
    (hm : handler.method event = .ok (.str (utf16 "POST")))
    (hb : get event (utf16 "body") = .ok (.str s)) (hs : s ≠ [])
    (hbad : parseText s = none) :
    handler E env event =
      .ok (lambdaResponse 500 (JSON.encoding E (errorBody E (.syntaxError s)))) := by
  apply handler_of_tryBlock_error
  rw [tryBlock_post E env event hm, body_or_of_nonempty event s hb hs, ok_bind,
    parse_str_none E s hbad]
  rfl

/-- A `POST` event whose body is JSON for `null`: the `TypeError` of reading `userId` reaches
the `catch` clause. -/
theorem handler_post_null (E : Engine) (env : ProcessEnv) (event : JSValue) (s : JSString)
    (hm : handler.method event = .ok (.str (utf16 "POST")))
    (hb : get event (utf16 "body") = .ok (.str s))
    (hp : parseText s = some .null) :
    handler E env event =
      .ok (lambdaResponse 500
        (JSON.encoding E (errorBody E (.nullRead .null (utf16 "userId"))))) := by
  apply handler_of_tryBlock_error
  rw [tryBlock_post E env event hm,
    body_or_of_nonempty event s hb (ne_nil_of_parseText hp), ok_bind,
    parse_str_some E s .null hp]
  rfl

/-! ## The claims -/

/-- Claim C1, amended: for every method string that is not empty and is neither `GET` nor
`POST`, whatever the rest of the request and the value of `REGION`, the Lambda-style handler
returns `{ statusCode: 405, body: 'Method not allowed' }`; the Azure-style handler assigns
`{ status: 405, body: 'Method not allowed' }` to `context.res`, and does so for the empty
method string too. -/
theorem C1_other_method_405 (m : JSString)
    (hget : m ≠ utf16 "GET") (hpost : m ≠ utf16 "POST") :
    (m ≠ [] → ∀ (E : Engine) (env : ProcessEnv) (props : Props),
      getOwn props (utf16 "httpMethod") = .str m →
      handler E env (.obj props) =
        .ok (lambdaResponse 405 (.str (utf16 "Method not allowed")))) ∧
    (∀ (env : ProcessEnv) (context props : Props),
      getOwn props (utf16 "method") = .str m →
      azure_function env context (.obj props) =
        .ok (defineProp context (utf16 "res")
          (azureResponse 405 (.str (utf16 "Method not allowed"))))) := by
  refine ⟨?_, ?_⟩
  · intro hm E env props h
    have hmeth : handler.method (.obj props) = .ok (.str m) :=
      method_of_httpMethod _ _ (by rw [get_obj, h]) (by cases m <;> simp_all [toBoolean])
    exact handler_other E env _ _ hmeth (strictEqualsString_str_ne hget)
      (strictEqualsString_str_ne hpost)
  · intro env context props h
    unfold azure_function
    simp only [get_obj, h, strictEqualsString_str_ne hget, strictEqualsString_str_ne hpost,
      ok_bind]
    rfl

/-- Witness of `C1_other_method_405` at the method `PUT`. -/
theorem C1_witness_put :
    (∀ E : Engine, handler E ⟨none⟩ (.obj [(utf16 "httpMethod", .str (utf16 "PUT"))]) =
      .ok (lambdaResponse 405 (.str (utf16 "Method not allowed")))) ∧
    azure_function ⟨none⟩ [] (.obj [(utf16 "method", .str (utf16 "PUT"))]) =
      .ok (defineProp [] (utf16 "res") (azureResponse 405 (.str (utf16 "Method not allowed")))) :=
  ⟨fun E => (C1_other_method_405 (utf16 "PUT") (by decide) (by decide)).1 (by decide) E ⟨none⟩
      [(utf16 "httpMethod", .str (utf16 "PUT"))] rfl,
   (C1_other_method_405 (utf16 "PUT") (by decide) (by decide)).2 ⟨none⟩ []
      [(utf16 "method", .str (utf16 "PUT"))] rfl⟩

/-- Claim C1 as stated fails at the empty method string: it is neither `GET` nor `POST`, and
the Lambda-style handler answers an event whose `httpMethod` is empty with status 200, not
405. -/
theorem C1_counterexample_empty_method :
    utf16 "" ≠ utf16 "GET" ∧ utf16 "" ≠ utf16 "POST" ∧
    (∀ E : Engine, handler E ⟨none⟩ (.obj [(utf16 "httpMethod", .str (utf16 ""))]) =
      .ok (lambdaResponse 200
        (.str (utf16 "\x7b\"region\":\"aws-unknown\",\"status\":\"ok\"\x7d")))) ∧
    (∀ E : Engine, handler E ⟨none⟩ (.obj [(utf16 "httpMethod", .str (utf16 ""))]) ≠
      .ok (lambdaResponse 405 (.str (utf16 "Method not allowed")))) := by
  have h1 : ∀ E : Engine, handler E ⟨none⟩ (.obj [(utf16 "httpMethod", .str (utf16 ""))]) =
      .ok (lambdaResponse 200
        (.str (utf16 "\x7b\"region\":\"aws-unknown\",\"status\":\"ok\"\x7d"))) :=
    fun E => handler_get E ⟨none⟩ _ rfl
  refine ⟨by decide, by decide, h1, fun E h => ?_⟩
  rw [h1 E] at h
  exact absurd (lambdaResponse_code_inj (Except.ok.inj h)) (by decide)

/-- Claim C2, amended: for every `POST` request whose parsed body `b` is not `null`, the `id`
of the answer is the value of `b.userId` when that value is truthy, and the text
`generated-id` when `b` has no `userId` or a falsy one (`''`, `0`, `false`, `null`). The
Azure-style handler assigns status 201 with the object `{ id }`. The Lambda-style handler
returns status 201 with the JSON encoding of `{ id }` whenever `JSON.stringify` serialises
that object, which it always does when the `id` is a primitive; when the object is nested too
deeply for the call stack, the `RangeError` reaches the `catch` clause and the answer is
status 500. -/
theorem C2_post_echoes_user_id (b u : JSValue) (hu : get b (utf16 "userId") = .ok u) :
    (∀ (E : Engine) (env : ProcessEnv) (event : JSValue) (s : JSString),
      handler.method event = .ok (.str (utf16 "POST")) →
      get event (utf16 "body") = .ok (.str s) → parseText s = some b →
      (E.stringifyOverflows (idBody (responseId u)) = false →
        handler E env event =
          .ok (lambdaResponse 201 (JSON.encoding E (idBody (responseId u))))) ∧
      (E.stringifyOverflows (idBody (responseId u)) = true →
        handler E env event =
          .ok (lambdaResponse 500 (JSON.encoding E (errorBody E .rangeError)))) ∧
      (u.isPrimitive = true → E.stringifyOverflows (idBody (responseId u)) = false)) ∧
    (∀ (env : ProcessEnv) (context : Props) (req : JSValue),
      get req (utf16 "method") = .ok (.str (utf16 "POST")) →
      get req (utf16 "body") = .ok b →
      azure_function env context req =
        .ok (defineProp context (utf16 "res") (azureResponse 201 (idBody (responseId u))))) ∧
    (toBoolean u = true → responseId u = u) ∧
    (toBoolean u = false → responseId u = .str (utf16 "generated-id")) := by
  refine ⟨?_, ?_, fun h => by simp [responseId, h], fun h => by simp [responseId, h]⟩
  · intro E env event s hm hb hp
    have h := handler_post_parsed E env event s b u hm hb (ne_nil_of_parseText hp) hp hu
    refine ⟨fun ho => ?_, fun ho => ?_, fun hprim => E.stringify_flat _ (flat_idBody u hprim)⟩
    · rw [h, ho]
      rfl
    · rw [h, if_pos ho]
  · intro env context req hm hb
    rw [azure_post env context req hm, hb, logicalOr_ok]
    by_cases ht : toBoolean b = true
    · rw [if_pos ht, ok_bind, hu, id_or]
      rfl
    · rw [if_neg ht]
      have hu2 : u = .undefined := by
        cases b with
        | undefined => cases hu
        | null => cases hu
        | bool x => cases hu; rfl
        | num n => cases hu; rfl
        | str t => cases hu; rfl
        | arr items => exact absurd rfl ht
        | obj props => exact absurd rfl ht
      subst hu2
      rfl

/-- Witness of `C2_post_echoes_user_id` at the body `{"userId":"u1"}`, which every engine
answers with status 201, and at the body `{"userId":[[]]}` on an engine with the smallest
stack, which answers with status 500. -/
theorem C2_witness_u1 :
    parseText (utf16 "\x7b\"userId\":\"u1\"\x7d") =
      some (.obj [(utf16 "userId", .str (utf16 "u1"))]) ∧
    (∀ E : Engine,
      handler E ⟨none⟩ (.obj [(utf16 "httpMethod", .str (utf16 "POST")),
          (utf16 "body", .str (utf16 "\x7b\"userId\":\"u1\"\x7d"))]) =
        .ok (lambdaResponse 201 (.str (utf16 "\x7b\"id\":\"u1\"\x7d")))) ∧
    azure_function ⟨none⟩ [] (.obj [(utf16 "method", .str (utf16 "POST")),
        (utf16 "body", .obj [(utf16 "userId", .str (utf16 "u1"))])]) =
      .ok [(utf16 "res", azureResponse 201 (idBody (.str (utf16 "u1"))))] ∧
    parseText (utf16 "\x7b\"userId\":[[]]\x7d") =
      some (.obj [(utf16 "userId", .arr [.arr []])]) ∧
    (∀ E : Engine,
      handler E.shallowStack ⟨none⟩ (.obj [(utf16 "httpMethod", .str (utf16 "POST")),
          (utf16 "body", .str (utf16 "\x7b\"userId\":[[]]\x7d"))]) =
        .ok (lambdaResponse 500
          (JSON.encoding E.shallowStack (errorBody E.shallowStack .rangeError)))) :=
  ⟨rfl,
   fun E =>
    ((C2_post_echoes_user_id (.obj [(utf16 "userId", .str (utf16 "u1"))])
      (.str (utf16 "u1")) rfl).1 E ⟨none⟩
      (.obj [(utf16 "httpMethod", .str (utf16 "POST")),
        (utf16 "body", .str (utf16 "\x7b\"userId\":\"u1\"\x7d"))])
      (utf16 "\x7b\"userId\":\"u1\"\x7d") rfl rfl rfl).1
      (E.stringify_flat (idBody (.str (utf16 "u1"))) rfl),
   (C2_post_echoes_user_id (.obj [(utf16 "userId", .str (utf16 "u1"))])
      (.str (utf16 "u1")) rfl).2.1 ⟨none⟩ []
      (.obj [(utf16 "method", .str (utf16 "POST")),
        (utf16 "body", .obj [(utf16 "userId", .str (utf16 "u1"))])]) rfl rfl,
   rfl,
   fun E =>
    ((C2_post_echoes_user_id (.obj [(utf16 "userId", .arr [.arr []])])
      (.arr [.arr []]) rfl).1 E.shallowStack ⟨none⟩
      (.obj [(utf16 "httpMethod", .str (utf16 "POST")),
        (utf16 "body", .str (utf16 "\x7b\"userId\":[[]]\x7d"))])
      (utf16 "\x7b\"userId\":[[]]\x7d") rfl rfl rfl).2.1 rfl⟩

/-- Claim C2 as stated fails when `userId` is present and falsy: with `userId: ''` the body
has a `userId` field, yet both handlers answer `id = 'generated-id'`, not the value of the
field. -/
theorem C2_counterexample_empty_user_id :
    parseText (utf16 "\x7b\"userId\":\"\"\x7d") =
      some (.obj [(utf16 "userId", .str (utf16 ""))]) ∧
    (∀ E : Engine,
      handler E ⟨none⟩ (.obj [(utf16 "httpMethod", .str (utf16 "POST")),
          (utf16 "body", .str (utf16 "\x7b\"userId\":\"\"\x7d"))]) =
        .ok (lambdaResponse 201 (.str (utf16 "\x7b\"id\":\"generated-id\"\x7d"))) ∧
      JSON.stringify E (idBody (.str (utf16 ""))) =
        .ok (.str (utf16 "\x7b\"id\":\"\"\x7d"))) ∧
    utf16 "\x7b\"id\":\"generated-id\"\x7d" ≠ utf16 "\x7b\"id\":\"\"\x7d" ∧
    azure_function ⟨none⟩ [] (.obj [(utf16 "method", .str (utf16 "POST")),
        (utf16 "body", .obj [(utf16 "userId", .str (utf16 ""))])]) =
      .ok [(utf16 "res", azureResponse 201 (idBody (.str (utf16 "generated-id"))))] ∧
    utf16 "generated-id" ≠ utf16 "" :=
  ⟨rfl,
   fun E => ⟨handler_post_flat E ⟨none⟩ _ (utf16 "\x7b\"userId\":\"\"\x7d")
      (.obj [(utf16 "userId", .str (utf16 ""))]) (.str (utf16 "")) rfl rfl rfl rfl rfl,
     stringify_of_flat E (idBody (.str (utf16 ""))) rfl⟩,
   by decide, rfl, by decide⟩

/-- Claim C3, amended: every `GET` request, whatever its body, is answered with status 200 and
a body of exactly the two fields `region` and `status = 'ok'`, JSON-encoded by the
Lambda-style handler and as an object by the Azure-style handler; `region` is the text of
`REGION` when the variable is set and not empty, and the fallback (`aws-unknown`,
`azure-unknown`) when it is unset or empty. -/
theorem C3_get_reports_region (env : ProcessEnv) :
    (∀ (E : Engine) (event : JSValue),
      handler.method event = .ok (.str (utf16 "GET")) →
      handler E env event =
        .ok (lambdaResponse 200
          (JSON.encoding E (regionBody (reportedRegion env (utf16 "aws-unknown")))))) ∧
    (∀ (context : Props) (req : JSValue),
      get req (utf16 "method") = .ok (.str (utf16 "GET")) →
      azure_function env context req =
        .ok (defineProp context (utf16 "res")
          (azureResponse 200 (regionBody (reportedRegion env (utf16 "azure-unknown")))))) ∧
    (∀ r : JSString, r ≠ [] → env.REGION = some r →
      reportedRegion env (utf16 "aws-unknown") = r ∧
      reportedRegion env (utf16 "azure-unknown") = r) ∧
    (env.REGION = none ∨ env.REGION = some [] →
      reportedRegion env (utf16 "aws-unknown") = utf16 "aws-unknown" ∧
      reportedRegion env (utf16 "azure-unknown") = utf16 "azure-unknown") := by
  refine ⟨fun E event h => handler_get E env event h,
    fun context req h => azure_get env context req h, ?_, ?_⟩
  · intro r hr h
    cases r with
    | nil => exact absurd rfl hr
    | cons c cs => simp [reportedRegion, h]
  · intro h
    rcases h with h | h <;> simp [reportedRegion, h]

/-- Witness of `C3_get_reports_region` with `REGION=eu-west-1`. -/
theorem C3_witness_eu_west_1 :
    (∀ E : Engine,
      handler E ⟨some (utf16 "eu-west-1")⟩ (.obj [(utf16 "httpMethod", .str (utf16 "GET"))]) =
        .ok (lambdaResponse 200
          (.str (utf16 "\x7b\"region\":\"eu-west-1\",\"status\":\"ok\"\x7d")))) ∧
    azure_function ⟨some (utf16 "eu-west-1")⟩ []
        (.obj [(utf16 "method", .str (utf16 "GET"))]) =
      .ok [(utf16 "res", azureResponse 200 (regionBody (utf16 "eu-west-1")))] :=
  ⟨fun E => (C3_get_reports_region ⟨some (utf16 "eu-west-1")⟩).1 E
      (.obj [(utf16 "httpMethod", .str (utf16 "GET"))]) rfl,
   (C3_get_reports_region ⟨some (utf16 "eu-west-1")⟩).2.1 []
      (.obj [(utf16 "method", .str (utf16 "GET"))]) rfl⟩

/-- Claim C3 as stated fails when `REGION` is set to the empty string: both handlers report
the fallback, not the value of the variable. -/
theorem C3_counterexample_empty_region :
    (∀ E : Engine,
      handler E ⟨some (utf16 "")⟩ (.obj [(utf16 "httpMethod", .str (utf16 "GET"))]) =
        .ok (lambdaResponse 200
          (.str (utf16 "\x7b\"region\":\"aws-unknown\",\"status\":\"ok\"\x7d"))) ∧
      JSON.stringify E (regionBody (utf16 "")) =
        .ok (.str (utf16 "\x7b\"region\":\"\",\"status\":\"ok\"\x7d"))) ∧
    utf16 "\x7b\"region\":\"aws-unknown\",\"status\":\"ok\"\x7d" ≠
      utf16 "\x7b\"region\":\"\",\"status\":\"ok\"\x7d" ∧
    azure_function ⟨some (utf16 "")⟩ [] (.obj [(utf16 "method", .str (utf16 "GET"))]) =
      .ok [(utf16 "res", azureResponse 200 (regionBody (utf16 "azure-unknown")))] ∧
    utf16 "azure-unknown" ≠ utf16 "" :=
  ⟨fun E => ⟨handler_get E ⟨some (utf16 "")⟩ _ rfl,
      stringify_of_flat E (regionBody (utf16 "")) rfl⟩,
   by decide, rfl, by decide⟩

/-- Claim C4, amended: for every `POST` event whose body is a non-empty string that is not
JSON, the Lambda-style handler does not throw: it returns status 500 and, as body, the JSON
encoding of an object with the single field `error`, which holds `String(err)` for the
`SyntaxError` of the parse. -/
theorem C4_malformed_json_500 (E : Engine) (env : ProcessEnv) (event : JSValue) (s : JSString)
    (hm : handler.method event = .ok (.str (utf16 "POST")))
    (hb : get event (utf16 "body") = .ok (.str s))
    (hs : s ≠ []) (hbad : parseText s = none) :
    handler E env event =
      .ok (lambdaResponse 500
        (JSON.encoding E (.obj [(utf16 "error", .str (E.errorToString (.syntaxError s)))]))) ∧
    JSON.encoding E (.obj [(utf16 "error", .str (E.errorToString (.syntaxError s)))]) =
      .str (utf16 "\x7b\"error\":" ++ quote (E.errorToString (.syntaxError s)) ++ utf16 "\x7d") :=
  ⟨handler_post_bad E env event s hm hb hs hbad, rfl⟩

/-- Witness of `C4_malformed_json_500` at the body `{not valid json`. -/
theorem C4_witness_not_valid_json :
    parseText (utf16 "\x7bnot valid json") = none ∧
    ∀ E : Engine,
      handler E ⟨none⟩ (.obj [(utf16 "httpMethod", .str (utf16 "POST")),
          (utf16 "body", .str (utf16 "\x7bnot valid json"))]) =
        .ok (lambdaResponse 500 (JSON.encoding E (.obj [(utf16 "error",
          .str (E.errorToString (.syntaxError (utf16 "\x7bnot valid json"))))]))) :=
  ⟨rfl, fun E => (C4_malformed_json_500 E ⟨none⟩
    (.obj [(utf16 "httpMethod", .str (utf16 "POST")),
      (utf16 "body", .str (utf16 "\x7bnot valid json"))])
    (utf16 "\x7bnot valid json") rfl rfl (by decide) rfl).1⟩

/-- Claim C4 as stated fails at the empty body: the empty string is not JSON, and a `POST`
event with `body: ''` is answered with status 201, not 500. -/
theorem C4_counterexample_empty_body :
    parseText (utf16 "") = none ∧
    (∀ E : Engine,
      handler E ⟨none⟩ (.obj [(utf16 "httpMethod", .str (utf16 "POST")),
          (utf16 "body", .str (utf16 ""))]) =
        .ok (lambdaResponse 201 (.str (utf16 "\x7b\"id\":\"generated-id\"\x7d")))) ∧
    (∀ (E : Engine) (body : JSValue),
      handler E ⟨none⟩ (.obj [(utf16 "httpMethod", .str (utf16 "POST")),
          (utf16 "body", .str (utf16 ""))]) ≠ .ok (lambdaResponse 500 body)) := by
  have h1 : ∀ E : Engine,
      handler E ⟨none⟩ (.obj [(utf16 "httpMethod", .str (utf16 "POST")),
          (utf16 "body", .str (utf16 ""))]) =
        .ok (lambdaResponse 201 (.str (utf16 "\x7b\"id\":\"generated-id\"\x7d"))) :=
    fun E => handler_post_empty E ⟨none⟩ _ rfl rfl
  refine ⟨rfl, h1, fun E body h => ?_⟩
  rw [h1 E] at h
  exact absurd (lambdaResponse_code_inj (Except.ok.inj h)) (by decide)

/-- Claim C5 fails on the code at the body `null`: the text is valid JSON, and the
Lambda-style handler answers the `POST` with status 500, its body describing the `TypeError`
of reading `userId` from `null`; the Azure-style handler answers the same request, body
already parsed, with status 201. -/
theorem C5_null_body_is_500 (E : Engine) (env : ProcessEnv) :
    parseText (utf16 "null") = some .null ∧
    handler E env (.obj [(utf16 "httpMethod", .str (utf16 "POST")),
        (utf16 "body", .str (utf16 "null"))]) =
      .ok (lambdaResponse 500 (JSON.encoding E (.obj [(utf16 "error",
        .str (E.errorToString (.nullRead .null (utf16 "userId"))))]))) ∧
    azure_function env [] (.obj [(utf16 "method", .str (utf16 "POST")),
        (utf16 "body", .null)]) =
      .ok [(utf16 "res", azureResponse 201 (idBody (.str (utf16 "generated-id"))))] :=
  ⟨rfl, handler_post_null E env _ (utf16 "null") rfl rfl rfl, rfl⟩

/-- Claim C6: a `POST` request whose body is missing or empty (`event.body` undefined, null or
the empty string; `req.body` undefined or null) is handled as the empty structure `{}`, and
the answer is status 201 with `id = 'generated-id'`. -/
theorem C6_post_without_body (env : ProcessEnv) :
    (∀ (E : Engine) (event x : JSValue),
      handler.method event = .ok (.str (utf16 "POST")) →
      get event (utf16 "body") = .ok x →
      x = .undefined ∨ x = .null ∨ x = .str [] →
      logicalOr (get event (utf16 "body")) (fun _ => pure (.str (utf16 "\x7b\x7d"))) >>= JSON.parse E
        = .ok (.obj []) ∧
      handler E env event =
        .ok (lambdaResponse 201 (.str (utf16 "\x7b\"id\":\"generated-id\"\x7d")))) ∧
    (∀ (context : Props) (req x : JSValue),
      get req (utf16 "method") = .ok (.str (utf16 "POST")) →
      get req (utf16 "body") = .ok x →
      x = .undefined ∨ x = .null →
      logicalOr (get req (utf16 "body")) (fun _ => pure (.obj [])) = .ok (.obj []) ∧
      azure_function env context req =
        .ok (defineProp context (utf16 "res")
          (azureResponse 201 (idBody (.str (utf16 "generated-id")))))) := by
  refine ⟨?_, ?_⟩
  · intro E event x hm hb hx
    have hor : logicalOr (get event (utf16 "body")) (fun _ => pure (.str (utf16 "\x7b\x7d"))) =
        .ok (.str (utf16 "\x7b\x7d")) := by
      rw [hb, logicalOr_ok]
      rcases hx with rfl | rfl | rfl <;> rfl
    exact ⟨by rw [hor]; exact parse_str_some E (utf16 "\x7b\x7d") (.obj []) rfl,
      handler_post_empty E env event hm hor⟩
  · intro context req x hm hb hx
    have hor : logicalOr (get req (utf16 "body")) (fun _ => pure (.obj [])) = .ok (.obj []) := by
      rw [hb, logicalOr_ok]
      rcases hx with rfl | rfl <;> rfl
    refine ⟨hor, ?_⟩
    rw [azure_post env context req hm, hor]
    rfl

/-- Witness of `C6_post_without_body`: a `POST` event with `body: null` and a `POST` request
with no body. -/
theorem C6_witness_null_body :
    (∀ E : Engine,
      handler E ⟨none⟩
          (.obj [(utf16 "httpMethod", .str (utf16 "POST")), (utf16 "body", .null)]) =
        .ok (lambdaResponse 201 (.str (utf16 "\x7b\"id\":\"generated-id\"\x7d")))) ∧
    azure_function ⟨none⟩ [] (.obj [(utf16 "method", .str (utf16 "POST"))]) =
      .ok [(utf16 "res", azureResponse 201 (idBody (.str (utf16 "generated-id"))))] :=
  ⟨fun E => ((C6_post_without_body ⟨none⟩).1 E
      (.obj [(utf16 "httpMethod", .str (utf16 "POST")), (utf16 "body", .null)])
      .null rfl rfl (Or.inr (Or.inl rfl))).2,
   ((C6_post_without_body ⟨none⟩).2 [] (.obj [(utf16 "method", .str (utf16 "POST"))])
      .undefined rfl rfl (Or.inl rfl)).2⟩

/-- Claim C7, amended: a truthy top-level `event.httpMethod` (a non-empty string) is the
dispatch method, whatever `event.requestContext` holds, and the response equals that of an
event with the same `httpMethod` and `body` and no `requestContext`. When `httpMethod` is
absent or falsy, `event.requestContext.http.method` is the dispatch method if it is truthy,
and `GET` otherwise. -/
theorem C7_top_level_method_first (props : Props) :
    (toBoolean (getOwn props (utf16 "httpMethod")) = true →
      handler.method (.obj props) = .ok (getOwn props (utf16 "httpMethod")) ∧
      ∀ (E : Engine) (env : ProcessEnv),
        handler E env (.obj props) =
          handler E env (.obj [(utf16 "httpMethod", getOwn props (utf16 "httpMethod")),
            (utf16 "body", getOwn props (utf16 "body"))])) ∧
    (toBoolean (getOwn props (utf16 "httpMethod")) = false →
      ∀ requestContext http : Props,
        getOwn props (utf16 "requestContext") = .obj requestContext →
        getOwn requestContext (utf16 "http") = .obj http →
        handler.method (.obj props) =
          .ok (if toBoolean (getOwn http (utf16 "method")) then getOwn http (utf16 "method")
            else .str (utf16 "GET"))) := by
  refine ⟨fun ht => ?_, fun hf rc http hrc hhttp => ?_⟩
  · have h1 := method_of_httpMethod (.obj props) _ (get_obj props _) ht
    refine ⟨h1, fun E env => handler_congr E env _ _ ?_ rfl⟩
    rw [h1]
    exact (method_of_httpMethod
      (.obj [(utf16 "httpMethod", getOwn props (utf16 "httpMethod")),
        (utf16 "body", getOwn props (utf16 "body"))]) (getOwn props (utf16 "httpMethod"))
      rfl ht).symm
  · apply method_of_nested props _ hf
    rw [get_obj, hrc]
    simp only [logicalAnd_ok, toBoolean, if_true, ok_bind, get_obj, hhttp]

/-- Witness of `C7_top_level_method_first`: `httpMethod: 'GET'` wins over a nested `POST`. -/
theorem C7_witness_get_over_post :
    toBoolean (.str (utf16 "GET")) = true ∧
    ∀ (E : Engine) (env : ProcessEnv),
      handler E env (.obj [(utf16 "httpMethod", .str (utf16 "GET")),
          (utf16 "requestContext", .obj [(utf16 "http",
            .obj [(utf16 "method", .str (utf16 "POST"))])])]) =
        handler E env (.obj [(utf16 "httpMethod", .str (utf16 "GET")),
          (utf16 "body", .undefined)]) :=
  ⟨rfl, ((C7_top_level_method_first [(utf16 "httpMethod", .str (utf16 "GET")),
      (utf16 "requestContext", .obj [(utf16 "http",
        .obj [(utf16 "method", .str (utf16 "POST"))])])]).1 rfl).2⟩

/-- Claim C7 as stated fails when `httpMethod` is present and empty: with a nested method
`POST` the event is answered with status 201, and without `requestContext` the same
`httpMethod` and body are answered with status 200. -/
theorem C7_counterexample_empty_http_method :
    getOwn [(utf16 "httpMethod", .str (utf16 "")),
        (utf16 "requestContext", .obj [(utf16 "http",
          .obj [(utf16 "method", .str (utf16 "POST"))])])] (utf16 "httpMethod") =
      .str (utf16 "") ∧
    (∀ E : Engine,
      handler E ⟨none⟩ (.obj [(utf16 "httpMethod", .str (utf16 "")),
          (utf16 "requestContext", .obj [(utf16 "http",
            .obj [(utf16 "method", .str (utf16 "POST"))])])]) =
        .ok (lambdaResponse 201 (.str (utf16 "\x7b\"id\":\"generated-id\"\x7d"))) ∧
      handler E ⟨none⟩ (.obj [(utf16 "httpMethod", .str (utf16 ""))]) =
        .ok (lambdaResponse 200
          (.str (utf16 "\x7b\"region\":\"aws-unknown\",\"status\":\"ok\"\x7d")))) ∧
    lambdaResponse 201 (.str (utf16 "\x7b\"id\":\"generated-id\"\x7d")) ≠
      lambdaResponse 200 (.str (utf16 "\x7b\"region\":\"aws-unknown\",\"status\":\"ok\"\x7d")) :=
  ⟨rfl,
   fun E => ⟨handler_post_empty E ⟨none⟩ _ rfl rfl, handler_get E ⟨none⟩ _ rfl⟩,
   fun h => absurd (lambdaResponse_code_inj h) (by decide)⟩

/-- Claim C8: each handler is a function of the method, the body and `REGION` alone. Two
events with the same dispatch method and the same `body` get the same response from the
Lambda-style handler, whatever else they hold; what the Azure-style handler assigns to
`context.res` is the same for two requests with the same `method` and `body`, whatever the
two context objects held before. -/
theorem C8_response_determined_by_request (env : ProcessEnv) :
    (∀ (E : Engine) (event1 event2 : JSValue),
      handler.method event1 = handler.method event2 →
      get event1 (utf16 "body") = get event2 (utf16 "body") →
      handler E env event1 = handler E env event2) ∧
    (∀ (context1 context2 : Props) (req1 req2 : JSValue),
      get req1 (utf16 "method") = get req2 (utf16 "method") →
      get req1 (utf16 "body") = get req2 (utf16 "body") →
      (azure_function env context1 req1).map (fun c => getOwn c (utf16 "res")) =
        (azure_function env context2 req2).map (fun c => getOwn c (utf16 "res"))) :=
  ⟨fun E event1 event2 => handler_congr E env event1 event2,
   fun context1 context2 req1 req2 => azure_congr env context1 context2 req1 req2⟩

/-- Witness of `C8_response_determined_by_request`: a `POST` event in the first event shape
with extra fields and one in the second shape; two requests and two different contexts. -/
theorem C8_witness_two_shapes :
    (∀ E : Engine,
      handler E ⟨none⟩ (.obj [(utf16 "httpMethod", .str (utf16 "POST")),
          (utf16 "path", .str (utf16 "/users")),
          (utf16 "body", .str (utf16 "\x7b\"userId\":\"u1\"\x7d"))]) =
        handler E ⟨none⟩ (.obj [(utf16 "requestContext", .obj [(utf16 "http",
            .obj [(utf16 "method", .str (utf16 "POST"))])]),
          (utf16 "body", .str (utf16 "\x7b\"userId\":\"u1\"\x7d"))])) ∧
    (azure_function ⟨none⟩ [] (.obj [(utf16 "method", .str (utf16 "GET"))])).map
        (fun c => getOwn c (utf16 "res")) =
      (azure_function ⟨none⟩ [(utf16 "res", .null), (utf16 "invocationId", .str (utf16 "7"))]
        (.obj [(utf16 "method", .str (utf16 "GET")), (utf16 "url", .str (utf16 "/"))])).map
        (fun c => getOwn c (utf16 "res")) :=
  ⟨fun E => (C8_response_determined_by_request ⟨none⟩).1 E
      (.obj [(utf16 "httpMethod", .str (utf16 "POST")),
        (utf16 "path", .str (utf16 "/users")),
        (utf16 "body", .str (utf16 "\x7b\"userId\":\"u1\"\x7d"))])
      (.obj [(utf16 "requestContext", .obj [(utf16 "http",
          .obj [(utf16 "method", .str (utf16 "POST"))])]),
        (utf16 "body", .str (utf16 "\x7b\"userId\":\"u1\"\x7d"))]) rfl rfl,
   (C8_response_determined_by_request ⟨none⟩).2 []
      [(utf16 "res", .null), (utf16 "invocationId", .str (utf16 "7"))]
      (.obj [(utf16 "method", .str (utf16 "GET"))])
      (.obj [(utf16 "method", .str (utf16 "GET")), (utf16 "url", .str (utf16 "/"))]) rfl rfl⟩

/-- Claim C9, amended: for every method string `m` that is not empty, every value of `REGION`
and every body text `s` that parses as JSON to a value `v`, where for `POST` the value `v` is
not `null` and `JSON.stringify` serialises the `{ id }` object without exhausting the call
stack, the Lambda-style handler called with `httpMethod = m`, `body = s` returns the status
that the Azure-style handler assigns when called with `method = m`, `body = v`. For `POST`
the Lambda body is the JSON encoding of the Azure body; for `GET` the two bodies are the
region and status objects of the two fallbacks, JSON-encoded by the Lambda-style handler; for
any other method both are the text `Method not allowed`. -/
theorem C9_same_dispatch (E : Engine) (m s : JSString) (v : JSValue)
    (hm : m ≠ []) (hp : parseText s = some v) (hv : m = utf16 "POST" → v ≠ .null)
    (hfit : m = utf16 "POST" → ∀ u, get v (utf16 "userId") = .ok u →
      E.stringifyOverflows (idBody (responseId u)) = false) :
    ∀ (env : ProcessEnv) (context event req : Props),
      getOwn event (utf16 "httpMethod") = .str m → getOwn event (utf16 "body") = .str s →
      getOwn req (utf16 "method") = .str m → getOwn req (utf16 "body") = v →
      ∃ (code : Nat) (lambdaBody azureBody : JSValue),
        handler E env (.obj event) = .ok (lambdaResponse code lambdaBody) ∧
        azure_function env context (.obj req) =
          .ok (defineProp context (utf16 "res") (azureResponse code azureBody)) ∧
        (m = utf16 "POST" → lambdaBody = JSON.encoding E azureBody) ∧
        (m = utf16 "GET" →
          lambdaBody = JSON.encoding E (regionBody (reportedRegion env (utf16 "aws-unknown"))) ∧
          azureBody = regionBody (reportedRegion env (utf16 "azure-unknown"))) ∧
        (m ≠ utf16 "GET" → m ≠ utf16 "POST" →
          lambdaBody = .str (utf16 "Method not allowed") ∧
          azureBody = .str (utf16 "Method not allowed")) := by
  intro env context event req hl1 hl2 hr1 hr2
  have hmeth : handler.method (.obj event) = .ok (.str m) :=
    method_of_httpMethod _ _ (by rw [get_obj, hl1]) (by cases m <;> simp_all [toBoolean])
  have hreq : get (.obj req) (utf16 "method") = .ok (.str m) := by rw [get_obj, hr1]
  by_cases hG : m = utf16 "GET"
  · subst hG
    exact ⟨200, _, _, handler_get E env _ hmeth,
      azure_get env context _ hreq, fun h => absurd h (by decide), fun _ => ⟨rfl, rfl⟩,
      fun h => absurd rfl h⟩
  · by_cases hP : m = utf16 "POST"
    · subst hP
      have hvn := hv rfl
      obtain ⟨u, hu, hu2⟩ : ∃ u, get v (utf16 "userId") = .ok u ∧
          (logicalOr (.ok v) (fun _ => pure (.obj [])) >>= fun body =>
            get body (utf16 "userId")) = .ok u := by
        cases v with
        | undefined => exact absurd hp (parseText_ne_undefined s)
        | null => exact absurd rfl hvn
        | bool x => cases x <;> exact ⟨_, rfl, rfl⟩
        | num n =>
          refine ⟨.undefined, rfl, ?_⟩
          rw [logicalOr_ok]
          split <;> rfl
        | str t => cases t <;> exact ⟨_, rfl, rfl⟩
        | arr items => exact ⟨_, rfl, rfl⟩
        | obj props => exact ⟨_, rfl, rfl⟩
      refine ⟨201, JSON.encoding E (idBody (responseId u)), idBody (responseId u), ?_, ?_,
        fun _ => rfl, fun h => absurd h hG, fun _ h => absurd rfl h⟩
      · rw [handler_post_parsed E env _ s v u hmeth (by rw [get_obj, hl2])
          (ne_nil_of_parseText hp) hp hu, hfit rfl u hu]
        rfl
      · rw [azure_post env context _ hreq, get_obj, hr2]
        have hu3 : (logicalOr (.ok v) (fun _ => pure (.obj [])) >>= fun body =>
            logicalOr (get body (utf16 "userId"))
              (fun _ => pure (.str (utf16 "generated-id")))) = .ok (responseId u) := by
          cases hor : logicalOr (.ok v) (fun _ => pure (.obj [])) with
          | error e => rw [hor] at hu2; cases hu2
          | ok body =>
            rw [hor, ok_bind] at hu2
            rw [ok_bind, hu2, id_or]
        cases hor : logicalOr (.ok v) (fun _ => pure (.obj [])) with
        | error e => rw [hor] at hu3; cases hu3
        | ok body =>
          rw [hor, ok_bind] at hu3
          rw [ok_bind]
          cases hid : logicalOr (get body (utf16 "userId"))
              (fun _ => pure (.str (utf16 "generated-id"))) with
          | error e => rw [hid] at hu3; cases hu3
          | ok id =>
            rw [hid] at hu3
            cases hu3
            rfl
    · exact ⟨405, _, _,
        handler_other E env _ _ hmeth
          (strictEqualsString_str_ne hG) (strictEqualsString_str_ne hP),
        azure_other env context _ _ hreq (strictEqualsString_str_ne hG)
          (strictEqualsString_str_ne hP),
        fun h => absurd h hP, fun h => absurd h hG, fun _ _ => ⟨rfl, rfl⟩⟩

/-- Witness of `C9_same_dispatch` at the method `POST` and the body `{"userId":"u1"}`. -/
theorem C9_witness_post_u1 :
    parseText (utf16 "\x7b\"userId\":\"u1\"\x7d") =
      some (.obj [(utf16 "userId", .str (utf16 "u1"))]) ∧
    ∀ E : Engine, ∃ (code : Nat) (lambdaBody azureBody : JSValue),
      handler E ⟨none⟩ (.obj [(utf16 "httpMethod", .str (utf16 "POST")),
          (utf16 "body", .str (utf16 "\x7b\"userId\":\"u1\"\x7d"))]) =
        .ok (lambdaResponse code lambdaBody) ∧
      azure_function ⟨none⟩ [] (.obj [(utf16 "method", .str (utf16 "POST")),
          (utf16 "body", .obj [(utf16 "userId", .str (utf16 "u1"))])]) =
        .ok (defineProp [] (utf16 "res") (azureResponse code azureBody)) ∧
      lambdaBody = JSON.encoding E azureBody := by
  refine ⟨rfl, fun E => ?_⟩
  obtain ⟨code, lambdaBody, azureBody, h1, h2, h3, -, -⟩ :=
    C9_same_dispatch E (utf16 "POST") (utf16 "\x7b\"userId\":\"u1\"\x7d")
      (.obj [(utf16 "userId", .str (utf16 "u1"))]) (by decide) rfl (fun _ h => by cases h)
      (fun _ u hu => by
        cases hu
        exact E.stringify_flat _ rfl)
      ⟨none⟩ []
      [(utf16 "httpMethod", .str (utf16 "POST")),
        (utf16 "body", .str (utf16 "\x7b\"userId\":\"u1\"\x7d"))]
      [(utf16 "method", .str (utf16 "POST")),
        (utf16 "body", .obj [(utf16 "userId", .str (utf16 "u1"))])]
      rfl rfl rfl rfl
  exact ⟨code, lambdaBody, azureBody, h1, h2, h3 rfl⟩

/-- Claim C9 as stated fails at the empty method string: with the body `{}`, which parses to
the empty object, the Lambda-style handler returns status 200 and the Azure-style handler
assigns status 405. -/
theorem C9_counterexample_empty_method :
    parseText (utf16 "\x7b\x7d") = some (.obj []) ∧
    (∀ E : Engine,
      handler E ⟨none⟩ (.obj [(utf16 "httpMethod", .str (utf16 "")),
          (utf16 "body", .str (utf16 "\x7b\x7d"))]) =
        .ok (lambdaResponse 200
          (.str (utf16 "\x7b\"region\":\"aws-unknown\",\"status\":\"ok\"\x7d")))) ∧
    azure_function ⟨none⟩ [] (.obj [(utf16 "method", .str (utf16 "")),
        (utf16 "body", .obj [])]) =
      .ok [(utf16 "res", azureResponse 405 (.str (utf16 "Method not allowed")))] ∧
    JSNumber.ofNat 200 ≠ JSNumber.ofNat 405 :=
  ⟨rfl, fun E => handler_get E ⟨none⟩ _ rfl, rfl, by decide⟩

/-- Claim C10: an event that carries no method at all (no `httpMethod`, and no
`requestContext`, or no `http` in it, or no `method` in that) is dispatched as `GET` by the
Lambda-style handler: status 200 with the region and status body, not 405. The Azure-style
handler has no such default: a request without `method` is answered with 405. -/
theorem C10_no_method_defaults_to_get (env : ProcessEnv) (props : Props)
    (h : getOwn props (utf16 "httpMethod") = .undefined)
    (hn : getOwn props (utf16 "requestContext") = .undefined ∨
      ∃ requestContext, getOwn props (utf16 "requestContext") = .obj requestContext ∧
        (getOwn requestContext (utf16 "http") = .undefined ∨
          ∃ http, getOwn requestContext (utf16 "http") = .obj http ∧
            getOwn http (utf16 "method") = .undefined)) :
    handler.method (.obj props) = .ok (.str (utf16 "GET")) ∧
    (∀ E : Engine, handler E env (.obj props) =
      .ok (lambdaResponse 200
        (JSON.encoding E (regionBody (reportedRegion env (utf16 "aws-unknown")))))) ∧
    ∀ (context reqProps : Props), getOwn reqProps (utf16 "method") = .undefined →
      azure_function env context (.obj reqProps) =
        .ok (defineProp context (utf16 "res")
          (azureResponse 405 (.str (utf16 "Method not allowed")))) := by
  have hm : handler.method (.obj props) = .ok (.str (utf16 "GET")) := by
    have key : ∀ nested, toBoolean nested = false →
        logicalAnd
          (logicalAnd (get (.obj props) (utf16 "requestContext")) fun _ => do
            let requestContext ← get (.obj props) (utf16 "requestContext")
            get requestContext (utf16 "http"))
          (fun _ => do
            let requestContext ← get (.obj props) (utf16 "requestContext")
            let http ← get requestContext (utf16 "http")
            get http (utf16 "method")) = .ok nested →
        handler.method (.obj props) = .ok (.str (utf16 "GET")) := by
      intro nested hf hv
      rw [method_of_nested props nested (by rw [h]; rfl) hv, hf]
      rfl
    rcases hn with hrc | ⟨rc, hrc, hhttp | ⟨http, hhttp, hmeth⟩⟩
    · exact key .undefined rfl (by rw [get_obj, hrc]; rfl)
    · exact key .undefined rfl (by
        rw [get_obj, hrc]
        simp only [logicalAnd_ok, toBoolean, if_true, ok_bind, get_obj, hhttp]
        rfl)
    · exact key .undefined rfl (by
        rw [get_obj, hrc]
        simp only [logicalAnd_ok, toBoolean, if_true, ok_bind, get_obj, hhttp, hmeth])
  refine ⟨hm, fun E => handler_get E env _ hm, ?_⟩
  intro context reqProps hr
  exact azure_other env context _ .undefined (by rw [get_obj, hr]) rfl rfl

/-- Witness of `C10_no_method_defaults_to_get`: the empty event, and the empty request. -/
theorem C10_witness_empty_event :
    (∀ E : Engine, handler E ⟨none⟩ (.obj []) =
      .ok (lambdaResponse 200
        (.str (utf16 "\x7b\"region\":\"aws-unknown\",\"status\":\"ok\"\x7d")))) ∧
    azure_function ⟨none⟩ [] (.obj []) =
      .ok [(utf16 "res", azureResponse 405 (.str (utf16 "Method not allowed")))] :=
  ⟨(C10_no_method_defaults_to_get ⟨none⟩ [] rfl (Or.inl rfl)).2.1,
   (C10_no_method_defaults_to_get ⟨none⟩ [] rfl (Or.inl rfl)).2.2 [] [] rfl⟩
